import Mathlib

/-!
Verification development for the sao-node shard lifecycle engine.

The Go sources are shallowly embedded: pure data is mirrored by Lean
structures, the durable datastore (ipfs go-datastore `Has/Get/Put`) is an
association log, external collaborators (chain RPCs, peer-to-peer
protocols, DID verification, filesystem) are environment records whose
fields give each call's outcome, and every fallible Go function returns
`Except`/`Option`.  Go's `uint64` counters are `Nat` with explicit
`% 2 ^ 64` where an increment occurs.  A call of a method on a nil Go
error interface is modelled as an explicit panic outcome.
-/

namespace SaoNode

/-! ## Shard states (Go iota constants from types, part_003) -/

def ShardStateValidated : Nat := 0

def ShardStateStored : Nat := 1

def ShardStateTxSent : Nat := 2

def ShardStateComplete : Nat := 3

def ShardStateTerminate : Nat := 4

/-- `MAX_RETRIES` constant from the storage service (part_006). -/
def MAX_RETRIES : Nat := 3

/-! ## Record types (types package, part_003) -/

/-- Provider-side shard record (`types.ShardInfo`).  `cid.Cid` values are
modelled by their string rendering. -/
structure ShardInfo where
  OrderId : Nat
  DataId : String
  Cid : String
  Owner : String
  Gateway : String
  OrderOperation : String
  ShardOperation : String
  CompleteHash : String
  CompleteHeight : Int
  Size : Nat
  Tries : Nat
  ExpireHeight : Nat
  State : Nat
  LastErr : String
  deriving DecidableEq

/-- The Go zero value of `types.ShardInfo`. -/
def ShardInfo.zero : ShardInfo :=
  { OrderId := 0, DataId := "", Cid := "", Owner := "", Gateway := ""
    OrderOperation := "", ShardOperation := "", CompleteHash := ""
    CompleteHeight := 0, Size := 0, Tries := 0, ExpireHeight := 0
    State := 0, LastErr := "" }

/-- `types.ShardKey`: key of a shard record, `(OrderId, Cid)`. -/
structure ShardKey where
  OrderId : Nat
  Cid : String
  deriving DecidableEq

/-- `types.OrderShardInfo` (shard entry inside a gateway order record). -/
structure OrderShardInfo where
  ShardId : Nat
  Peer : String
  Cid : String
  Provider : String
  State : String
  CompleteHash : String
  deriving DecidableEq

/-- Gateway-side order record (`types.OrderInfo`). -/
structure OrderInfo where
  DataId : String
  Owner : String
  Cid : String
  StagePath : String
  OrderId : Nat
  OrderHash : String
  OrderTxType : String
  OrderHeight : Int
  Shards : List (String × OrderShardInfo)
  ExpireHeight : Nat
  State : Nat
  Tries : Nat
  RetryAt : Int
  LastErr : String
  deriving DecidableEq

/-- Migration record (`types.MigrateInfo`). -/
structure MigrateInfo where
  DataId : String
  OrderId : Nat
  Cid : String
  FromProvider : String
  ToProvider : String
  MigrateTxHash : String
  MigrateTxHeight : Int
  CompleteTxHash : String
  CompleteTxHeight : Int
  State : Nat
  deriving DecidableEq

/-! ## Durable datastore (utils package, part_003)

The Go code stores CBOR bytes under formatted string keys
(`order-%s`, `order-%d-shard-%v`, `migrate-%d-shard-%v` and three fixed
index keys).  The formats are prefix-disjoint for well-formed ids, so a
key is modelled by its parsed shape, and a stored byte string by its
decoded value (the codec is deterministic). -/

inductive DsKey where
  | orderKey (dataId : String)
  | shardKey (orderId : Nat) (cid : String)
  | migrateKey (orderId : Nat) (cid : String)
  | orderIndexKey
  | shardIndexKey
  | migrateIndexKey
  deriving DecidableEq

inductive DsVal where
  | orderRec (o : OrderInfo)
  | shardRec (s : ShardInfo)
  | migrateRec (m : MigrateInfo)
  | orderIdx (all : String)
  | shardIdx (all : List ShardKey)
  | migrateIdx (all : List ShardKey)
  deriving DecidableEq

/-- The datastore is a write log; `Put` prepends, `Get` takes the most
recent binding.  This makes the order of writes inside one save visible
in the resulting value. -/
abbrev DS := List (DsKey × DsVal)

def dsPut (k : DsKey) (v : DsVal) (ds : DS) : DS := (k, v) :: ds

def dsGet (ds : DS) (k : DsKey) : Option DsVal :=
  match ds with
  | [] => none
  | (k2, v) :: rest => if k2 = k then some v else dsGet rest k

def dsHas (ds : DS) (k : DsKey) : Bool := (dsGet ds k).isSome

/-! ## utils save/get functions (part_003, second file) -/

/-- `utils.UpdateShardIndex`: read the shard index (zero value when the
key is absent), append the key, write it back.  Fails only when the
stored index bytes do not decode. -/
def UpdateShardIndex (ds : DS) (orderId : Nat) (cid : String) : Except String DS :=
  match dsGet ds DsKey.shardIndexKey with
  | none => .ok (dsPut DsKey.shardIndexKey (.shardIdx [⟨orderId, cid⟩]) ds)
  | some (.shardIdx all) =>
      .ok (dsPut DsKey.shardIndexKey (.shardIdx (all ++ [⟨orderId, cid⟩])) ds)
  | some _ => .error "shard index unmarshal error"

/-- `utils.SaveShard`: write the record bytes, then append the key to the
shard index only when the record did not previously exist.  The write of
the record happens before (and regardless of) the index update; an index
decode failure is surfaced but leaves the record written. -/
def SaveShard (ds : DS) (shard : ShardInfo) : DS × Option String :=
  let key := DsKey.shardKey shard.OrderId shard.Cid
  let exists0 := dsHas ds key
  let ds1 := dsPut key (.shardRec shard) ds
  if exists0 then (ds1, none)
  else
    match UpdateShardIndex ds1 shard.OrderId shard.Cid with
    | .ok ds2 => (ds2, none)
    | .error e => (ds1, some e)

/-- `utils.GetShard`: the zero-valued record and a nil error when the key
is absent. -/
def GetShard (ds : DS) (orderId : Nat) (cid : String) : Except String ShardInfo :=
  match dsGet ds (DsKey.shardKey orderId cid) with
  | none => .ok ShardInfo.zero
  | some (.shardRec s) => .ok s
  | some _ => .error "shard unmarshal error"

/-- `utils.GetShardIndex`: zero value when absent. -/
def GetShardIndex (ds : DS) : Except String (List ShardKey) :=
  match dsGet ds DsKey.shardIndexKey with
  | none => .ok []
  | some (.shardIdx all) => .ok all
  | some _ => .error "shard index unmarshal error"

/-- `utils.UpdateOrderIndex`: the order index is kept as one
comma-separated string (`index.All + "," + id`). -/
def UpdateOrderIndex (ds : DS) (id : String) : Except String DS :=
  match dsGet ds DsKey.orderIndexKey with
  | none => .ok (dsPut DsKey.orderIndexKey (.orderIdx id) ds)
  | some (.orderIdx all) =>
      if 0 < all.length then
        .ok (dsPut DsKey.orderIndexKey (.orderIdx (all ++ "," ++ id)) ds)
      else
        .ok (dsPut DsKey.orderIndexKey (.orderIdx id) ds)
  | some _ => .error "order index unmarshal error"

/-- `utils.SaveOrder`: record first, index append only when fresh. -/
def SaveOrder (ds : DS) (order : OrderInfo) : DS × Option String :=
  let key := DsKey.orderKey order.DataId
  let exists0 := dsHas ds key
  let ds1 := dsPut key (.orderRec order) ds
  if exists0 then (ds1, none)
  else
    match UpdateOrderIndex ds1 order.DataId with
    | .ok ds2 => (ds2, none)
    | .error e => (ds1, some e)

/-- `utils.UpdateMigrateIndex` (part_003 stores a `types.ShardIndex`
shaped value under the migrate index key). -/
def UpdateMigrateIndex (ds : DS) (orderId : Nat) (cid : String) : Except String DS :=
  match dsGet ds DsKey.migrateIndexKey with
  | none => .ok (dsPut DsKey.migrateIndexKey (.migrateIdx [⟨orderId, cid⟩]) ds)
  | some (.migrateIdx all) =>
      .ok (dsPut DsKey.migrateIndexKey (.migrateIdx (all ++ [⟨orderId, cid⟩])) ds)
  | some _ => .error "migrate index unmarshal error"

/-- `utils.SaveMigrate`: record first, index append only when fresh. -/
def SaveMigrate (ds : DS) (migrate : MigrateInfo) : DS × Option String :=
  let key := DsKey.migrateKey migrate.OrderId migrate.Cid
  let exists0 := dsHas ds key
  let ds1 := dsPut key (.migrateRec migrate) ds
  if exists0 then (ds1, none)
  else
    match UpdateMigrateIndex ds1 migrate.OrderId migrate.Cid with
    | .ok ds2 => (ds2, none)
    | .error e => (ds1, some e)

/-- `utils.GetMigrate` (part_003 version, keyed by `(orderId, cid)`). -/
def GetMigrate (ds : DS) (orderId : Nat) (cid : String) : Except String MigrateInfo :=
  match dsGet ds (DsKey.migrateKey orderId cid) with
  | none => .ok { DataId := "", OrderId := 0, Cid := "", FromProvider := ""
                  ToProvider := "", MigrateTxHash := "", MigrateTxHeight := 0
                  CompleteTxHash := "", CompleteTxHeight := 0, State := 0 }
  | some (.migrateRec m) => .ok m
  | some _ => .error "migrate unmarshal error"

/-! ## Wire types (types package, per their use in part_006) -/

/-- `saotypes.QueryProposal` (fields copied by `HandleShardLoad`). -/
structure QueryProposal where
  Owner : String
  Keyword : String
  GroupId : String
  KeywordType : Nat
  LastValidHeight : Nat
  Gateway : String
  CommitId : String
  Version : String
  deriving DecidableEq

def QueryProposal.zero : QueryProposal :=
  { Owner := "", Keyword := "", GroupId := "", KeywordType := 0
    LastValidHeight := 0, Gateway := "", CommitId := "", Version := "" }

/-- Detached JWS signature of a proposal. -/
structure JwsSignature where
  Protected : String
  Signature : String
  deriving DecidableEq

def JwsSignature.zero : JwsSignature := { Protected := "", Signature := "" }

/-- `types.MetadataProposal`: query proposal plus detached JWS. -/
structure MetadataProposal where
  Proposal : QueryProposal
  JwsSignature : JwsSignature
  deriving DecidableEq

def MetadataProposal.zero : MetadataProposal :=
  { Proposal := QueryProposal.zero, JwsSignature := JwsSignature.zero }

/-- Relay proposal body (fields read by `HandleShardLoad`). -/
structure RelayProposalBody where
  NodeAddress : String
  RelayPeerIds : String
  deriving DecidableEq

/-- Signed relay proposal. -/
structure RelayProposal where
  Proposal : RelayProposalBody
  Signature : String
  deriving DecidableEq

def RelayProposal.zero : RelayProposal :=
  { Proposal := { NodeAddress := "", RelayPeerIds := "" }, Signature := "" }

/-- `types.ShardLoadReq`. -/
structure ShardLoadReq where
  OrderId : Nat
  Owner : String
  Cid : String
  Proposal : MetadataProposal
  RelayProposal : RelayProposal
  RequestId : Int
  deriving DecidableEq

/-- `types.ShardLoadResp`. -/
structure ShardLoadResp where
  OrderId : Nat
  Cid : String
  Content : List Nat
  Code : Nat
  Message : String
  RequestId : Int
  ResponseId : Int
  deriving DecidableEq

/-- `types.ShardCompleteReq` (fields set by the worker in part_006). -/
structure ShardCompleteReq where
  OrderId : Nat
  DataId : String
  Cids : List String
  Height : Int
  TxHash : String
  deriving DecidableEq

/-- `types.ShardCompleteResp`. -/
structure ShardCompleteResp where
  Code : Nat
  Message : String
  deriving DecidableEq

/-! ## Worker state machine (`StoreSvc.process`, part_006)

External calls are decided by a `ProcEnv` record: each field is the
outcome the corresponding collaborator produces during this attempt. -/

structure ProcEnv where
  nodeAddress : String
  getLastHeight : Except String Int
  getNodePeer : Except String String
  requestShardStore : ShardLoadReq → String → ShardLoadResp
  calculateCid : List Nat → String
  storeResult : Option String
  isExist : Bool
  completeOrder : Except String (String × Int)
  requestShardComplete : ShardCompleteReq → String → ShardCompleteResp

/-- Error kinds of the typed errors raised by `process`. -/
inductive ErrT where
  | retriesExceed
  | expiredOrder
  | failuresResponsed
  | invalidCid
  | storeFailed
  | dataMissing
  | other
  deriving DecidableEq

/-- Outcome of one processing attempt.  `panicNil` marks the Go runtime
panic from calling `Error()` on a nil error interface. -/
inductive ProcResult where
  | ok
  | fail (t : ErrT) (msg : String)
  | panicNil
  deriving DecidableEq

/-- `StoreSvc.updateShardError`: set `LastErr` from the given error and
persist (the save error is only logged).  A nil error interface makes
`err.Error()` panic, modelled by `none`. -/
def updateShardError (ds : DS) (shard : ShardInfo) (e : Option String) : Option DS :=
  match e with
  | none => none
  | some msg => some (SaveShard ds { shard with LastErr := msg }).fst

/-- Message built in the retries-exceeded branch of `process`. -/
def retriesMsg (task : ShardInfo) : String :=
  "order " ++ toString task.OrderId ++ " shard " ++ task.DataId ++
    " too many retries " ++ toString task.Tries

/-- Message built in the expired-order branch of `process`. -/
def expiredMsg (latest : Int) (expireAt : Nat) : String :=
  "order expired: latest=" ++ toString latest ++ " expireAt=" ++ toString expireAt

/-- Step 7 of `process`: `ShardComplete` notification.  A non-zero
response code only records `LastErr` (the error return is commented out
in the source); then the state is promoted to `Complete` if still
below it. -/
def processNotify (env : ProcEnv) (ds : DS) (task : ShardInfo) (peer : String) :
    ProcResult × DS :=
  let resp := env.requestShardComplete
    { OrderId := task.OrderId, DataId := task.DataId, Cids := [task.Cid]
      Height := task.CompleteHeight, TxHash := task.CompleteHash } peer
  let ds1 := if resp.Code ≠ 0 then
      ((updateShardError ds task (some resp.Message)).getD ds)
    else ds
  if task.State < ShardStateComplete then
    (.ok, (SaveShard ds1 { task with State := ShardStateComplete }).fst)
  else
    (.ok, ds1)

/-- Step 6 of `process`: submit `MsgComplete` when the state is still
below `TxSent`; on success record the tx coordinates, set the state to
`Complete` and persist. -/
def processTx (env : ProcEnv) (ds : DS) (task : ShardInfo) (peer : String) :
    ProcResult × DS :=
  if task.State < ShardStateTxSent then
    match env.completeOrder with
    | .error e => (.fail .other e, (updateShardError ds task (some e)).getD ds)
    | .ok txres =>
        let task1 := { task with State := ShardStateComplete
                                 CompleteHash := txres.fst
                                 CompleteHeight := txres.snd }
        processNotify env (SaveShard ds task1).fst task1 peer
  else
    processNotify env ds task peer

/-- Tail of step 5 of `process`: set the state to `Stored`, persist
(the save error is only logged), and continue. -/
def processMarkStored (env : ProcEnv) (ds : DS) (task : ShardInfo) (peer : String) :
    ProcResult × DS :=
  let task1 := { task with State := ShardStateStored }
  processTx env (SaveShard ds task1).fst task1 peer

/-- Step 5 of `process`: fetch and store the shard (or, for a renew,
check it is still present).  The source passes the stale nil `err`
variable to `updateShardError` both on a cid mismatch and on a missing
renew shard, which panics before `ErrInvalidCid`/`ErrDataMissing` can be
returned. -/
def processStore (env : ProcEnv) (ds : DS) (task : ShardInfo) (peer : String) :
    ProcResult × DS :=
  if task.State < ShardStateStored then
    if task.OrderOperation ≠ "3" ∨ task.ShardOperation ≠ "3" then
      let resp := env.requestShardStore
        { OrderId := task.OrderId, Owner := task.Owner, Cid := task.Cid
          Proposal := MetadataProposal.zero, RelayProposal := RelayProposal.zero
          RequestId := 0 } peer
      if resp.Code ≠ 0 then
        (.fail .failuresResponsed resp.Message,
          (updateShardError ds task (some resp.Message)).getD ds)
      else
        if env.calculateCid resp.Content ≠ task.Cid then
          (.panicNil, ds)
        else
          match env.storeResult with
          | some e => (.fail .storeFailed e, (updateShardError ds task (some e)).getD ds)
          | none =>
              processMarkStored env ds { task with Size := resp.Content.length } peer
    else
      if env.isExist then processMarkStored env ds task peer
      else (.panicNil, ds)
  else
    processTx env ds task peer

/-- Step 4 of `process`: resolve the transport and peer
(`getStorageProtocolAndPeer`). -/
def processResolve (env : ProcEnv) (ds : DS) (task : ShardInfo) :
    ProcResult × DS :=
  if task.Gateway = env.nodeAddress then
    processStore env ds task ""
  else
    match env.getNodePeer with
    | .error e => (.fail .other e, (updateShardError ds task (some e)).getD ds)
    | .ok peer => processStore env ds task peer

/-- Step 3 of `process`: expiry check against the latest chain height. -/
def processExpire (env : ProcEnv) (ds : DS) (task : ShardInfo) :
    ProcResult × DS :=
  if 0 < task.ExpireHeight then
    match env.getLastHeight with
    | .error e => (.fail .other e, ds)
    | .ok latest =>
        if (task.ExpireHeight : Int) < latest then
          let task1 := { task with State := ShardStateTerminate }
          let m := expiredMsg latest task.ExpireHeight
          (.fail .expiredOrder m, (updateShardError ds task1 (some m)).getD ds)
        else
          processResolve env ds task
  else
    processResolve env ds task

/-- `StoreSvc.process`: one attempt of the worker state machine on a
shard task. -/
def process (env : ProcEnv) (ds : DS) (task : ShardInfo) : ProcResult × DS :=
  if task.State = ShardStateTerminate then (.ok, ds)
  else
    let task1 := { task with Tries := (task.Tries + 1) % (2 ^ 64) }
    if MAX_RETRIES ≤ task1.Tries then
      let task2 := { task1 with State := ShardStateTerminate }
      let m := retriesMsg task2
      (.fail .retriesExceed m, (updateShardError ds task2 (some m)).getD ds)
    else
      processExpire env ds task1

/-- `StoreSvc.Start`: drain the task queue, calling `process` on each
task; a failed attempt is only logged (the source marks the retry
mechanism as TODO), so no task is ever re-enqueued by the worker. -/
def Start (env : ProcEnv) (ds : DS) (queue : List ShardInfo) :
    DS × List ProcResult :=
  match queue with
  | [] => (ds, [])
  | t :: rest =>
      let r := process env ds t
      let rec0 := Start env r.snd rest
      (rec0.fst, r.fst :: rec0.snd)

/-! ## Restart recovery (`processIncompleteShards`, part_006) -/

/-- Loop body of `StoreSvc.getPendingShardList`: read every indexed
record, keep those whose state is neither `Complete` nor `Terminate`;
any read error aborts the whole listing. -/
def pendingLoop (ds : DS) (keys : List ShardKey) : Except String (List ShardInfo) :=
  match keys with
  | [] => .ok []
  | k :: rest =>
      match GetShard ds k.OrderId k.Cid with
      | .error e => .error e
      | .ok shard =>
          match pendingLoop ds rest with
          | .error e => .error e
          | .ok tail =>
              if shard.State ≠ ShardStateComplete ∧ shard.State ≠ ShardStateTerminate then
                .ok (shard :: tail)
              else
                .ok tail

/-- `StoreSvc.getPendingShardList`. -/
def getPendingShardList (ds : DS) : Except String (List ShardInfo) :=
  match GetShardIndex ds with
  | .error e => .error e
  | .ok keys => pendingLoop ds keys

/-- `StoreSvc.processIncompleteShards`: the tasks pushed onto the worker
queue at restart (an error is logged and nothing is enqueued). -/
def processIncompleteShards (ds : DS) : List ShardInfo :=
  match getPendingShardList ds with
  | .error _ => []
  | .ok pendings => pendings

/-! ## Error codes and chain-side order data

The numeric values of the `types.ErrorCode*` constants and of the chain
module's shard status constants are not among the sources; only
`0 = success` and the distinctness of the statuses are used. -/

/-- Modelled from the spec: error codes are drawn from the taxonomy with
`0 = success`; the concrete value only needs to be non-zero. -/
def ErrorCodeInternalErr : Nat := 100

/-- Modelled from the spec: non-zero error code for an invalid tx. -/
def ErrorCodeInvalidTx : Nat := 101

/-- Modelled from the spec: non-zero error code. -/
def ErrorCodeInvalidShardAssignee : Nat := 102

/-- Modelled from the spec: non-zero error code. -/
def ErrorCodeInvalidProvider : Nat := 103

/-- Modelled from the spec: non-zero error code. -/
def ErrorCodeInvalidShardCid : Nat := 104

/-- Modelled from the spec: `ordertypes.ShardWaiting` (chain module);
only distinctness from the other statuses is used. -/
def ShardWaiting : Nat := 1

/-- Modelled from the spec: `ordertypes.ShardCompleted` (chain module). -/
def ShardCompleted : Nat := 2

/-- Shard entry of an on-chain order (`order.Shards[provider]`). -/
structure ChainShard where
  From : String
  Cid : String
  Status : Nat
  deriving DecidableEq

/-- On-chain order, with the fields read in part_006. -/
structure ChainOrder where
  Id : Nat
  Owner : String
  Provider : String
  Operation : Nat
  Expire : Int
  Shards : List (String × ChainShard)
  deriving DecidableEq

/-- Go map lookup on an association list. -/
def goMapGet (m : List (String × α)) (k : String) : Option α :=
  match m with
  | [] => none
  | (k2, v) :: rest => if k2 = k then some v else goMapGet rest k

/-- Character-list prefix test. -/
def listIsPre : List Char → List Char → Bool
  | [], _ => true
  | _ :: _, [] => false
  | a :: l1, b :: l2 => a = b && listIsPre l1 l2

/-- Character-list substring test. -/
def listSub (pat : List Char) : List Char → Bool
  | [] => pat.isEmpty
  | c :: rest => listIsPre pat (c :: rest) || listSub pat rest

/-- `strings.HasPrefix`. -/
def goStartsWith (s pre : String) : Bool := listIsPre pre.data s.data

/-- `strings.Contains` (an empty pattern always matches, as in Go). -/
def goContains (s pat : String) : Bool := listSub pat.data s.data

/-! ## `StoreSvc.HandleShardAssign` (part_006) -/

/-- `types.ShardAssignReq` as used in part_006 (with `Height` and
`DataId`, which the older wire type in the repo lacks). -/
structure ShardAssignReq where
  OrderId : Nat
  DataId : String
  Assignee : String
  TxHash : String
  Height : Int
  AssignTxType : String
  deriving DecidableEq

/-- `types.ShardAssignResp`. -/
structure ShardAssignResp where
  Code : Nat
  Message : String
  deriving DecidableEq

/-- Environment of one `HandleShardAssign` call. -/
structure AssignEnv where
  nodeAddress : String
  getTx : Except String Nat
  txUnmarshalOk : Bool
  msgStoreUnmarshalOk : Bool
  msgReadyUnmarshalOk : Bool
  getOrder : Except String ChainOrder
  cidDecodeOk : String → Bool

/-- Total read used in the assign loop: the source discards the
`GetShard` error with `shardInfo, _ := utils.GetShard(...)`, leaving the
zero value on failure. -/
def getShardIgnoringError (ds : DS) (orderId : Nat) (cid : String) : ShardInfo :=
  match GetShard ds orderId cid with
  | .ok s => s
  | .error _ => ShardInfo.zero

/-- The fresh shard record created by `HandleShardAssign` when no record
is persisted yet (unset Go fields keep their zero values). -/
def freshShard (order : ChainOrder) (req : ShardAssignReq) (cid : String) : ShardInfo :=
  { Owner := order.Owner, OrderId := req.OrderId, Gateway := order.Provider
    Cid := cid, DataId := req.DataId
    OrderOperation := toString order.Operation
    ShardOperation := toString order.Operation
    State := ShardStateValidated
    ExpireHeight := (order.Expire.emod (2 ^ 64)).toNat
    CompleteHash := "", CompleteHeight := 0, Size := 0, Tries := 0
    LastErr := "" }

/-- Loop body of `HandleShardAssign` for one shard cid: read the record,
create and persist a fresh one when the read result equals the zero
value, and enqueue the (possibly fresh) record. -/
def handleShardAssignShard (order : ChainOrder)
    (req : ShardAssignReq) (ds : DS) (cid : String) : DS × ShardInfo :=
  let shardInfo := getShardIgnoringError ds req.OrderId cid
  if shardInfo = ShardInfo.zero then
    ((SaveShard ds (freshShard order req cid)).fst, freshShard order req cid)
  else
    (ds, shardInfo)

/-- Shard loop of `HandleShardAssign`: an undecodable cid aborts with
`ErrorCodeInvalidShardCid`; otherwise each cid is handled and the task
enqueued. -/
def assignLoop (env : AssignEnv) (order : ChainOrder) (req : ShardAssignReq)
    (ds : DS) (cids : List String) :
    Except ShardAssignResp (DS × List ShardInfo) :=
  match cids with
  | [] => .ok (ds, [])
  | cid :: rest =>
      if env.cidDecodeOk cid then
        let step := handleShardAssignShard order req ds cid
        match assignLoop env order req step.fst rest with
        | .error r => .error r
        | .ok tail => .ok (tail.fst, step.snd :: tail.snd)
      else
        .error { Code := ErrorCodeInvalidShardCid, Message := "invalid cid " ++ cid }

/-- `StoreSvc.HandleShardAssign`: validate the assignment tx, collect
this provider's shard cids from the order, and run the shard loop.
Returns the response, the datastore, and the tasks pushed onto the
worker queue. -/
def HandleShardAssign (env : AssignEnv) (ds : DS) (req : ShardAssignReq) :
    ShardAssignResp × DS × List ShardInfo :=
  if req.Assignee ≠ env.nodeAddress then
    ({ Code := ErrorCodeInvalidShardAssignee
       Message := "shard assignee is " ++ req.Assignee ++ ", but current node is "
         ++ env.nodeAddress }, ds, [])
  else
    match env.getTx with
    | .error e => ({ Code := ErrorCodeInternalErr, Message := "internal error: " ++ e }, ds, [])
    | .ok txCode =>
        if txCode = 0 then
          if ¬ env.txUnmarshalOk then
            ({ Code := ErrorCodeInvalidTx, Message := "tx body is invalid." }, ds, [])
          else
            let msgOk := if req.AssignTxType = "MsgStore" then env.msgStoreUnmarshalOk
              else env.msgReadyUnmarshalOk
            if ¬ msgOk then
              ({ Code := ErrorCodeInvalidTx, Message := "tx body is invalid." }, ds, [])
            else
              match env.getOrder with
              | .error e =>
                  ({ Code := ErrorCodeInternalErr, Message := "internal error: " ++ e }, ds, [])
              | .ok order =>
                  let shardCids := order.Shards.filterMap
                    (fun kv => if kv.fst = env.nodeAddress then some kv.snd.Cid else none)
                  if shardCids.length = 0 then
                    ({ Code := ErrorCodeInvalidProvider
                       Message := "order " ++ toString req.OrderId ++
                         " doesn't have shard provider " ++ env.nodeAddress }, ds, [])
                  else
                    match assignLoop env order req ds shardCids with
                    | .error resp => (resp, ds, [])
                    | .ok res => ({ Code := 0, Message := "" }, res.fst, res.snd)
        else
          ({ Code := ErrorCodeInvalidTx, Message := "tx body is invalid." }, ds, [])

/-! ## `StoreSvc.HandleShardMigrate` (part_006) -/

/-- `types.ShardMigrateReq`. -/
structure ShardMigrateReq where
  MigrateFrom : String
  OrderId : Nat
  DataId : String
  TxHash : String
  TxHeight : Int
  Cid : String
  Content : List Nat
  deriving DecidableEq

/-- `types.ShardMigrateResp`. -/
structure ShardMigrateResp where
  Code : Nat
  Message : String
  CompleteHash : String
  CompleteHeight : Int
  deriving DecidableEq

/-- Environment of one `HandleShardMigrate` call. -/
structure MigrateEnv where
  nodeAddress : String
  getTx : Except String Nat
  txMsgDataOk : Bool
  migrateResult : Option (List (String × String))
  getOrder : Except String ChainOrder
  cidDecodeOk : String → Bool
  storeResult : Option String
  completeOrder : Except String (String × Int)

/-- Failure response of `HandleShardMigrate` (`logAndRespond`). -/
def migrateFail (code : Nat) (msg : String) : ShardMigrateResp :=
  { Code := code, Message := msg, CompleteHash := "", CompleteHeight := 0 }

/-- `StoreSvc.HandleShardMigrate`: verify the `MsgMigrate` tx and the
receiving provider's shard entry, store the content, submit
`MsgComplete`, and return its coordinates. -/
def HandleShardMigrate (env : MigrateEnv) (req : ShardMigrateReq) : ShardMigrateResp :=
  match env.getTx with
  | .error _ => migrateFail ErrorCodeInternalErr ("Get tx " ++ req.TxHash ++ " error: ")
  | .ok txCode =>
      if txCode ≠ 0 then
        migrateFail ErrorCodeInternalErr
          ("Tx " ++ req.TxHash ++ " failed with code: " ++ toString txCode)
      else if ¬ env.txMsgDataOk then
        migrateFail ErrorCodeInternalErr "unmarshal tx error"
      else
        match env.migrateResult with
        | none => migrateFail ErrorCodeInternalErr "unmarshal tx error"
        | some result =>
            match goMapGet result req.DataId with
            | none =>
                migrateFail ErrorCodeInternalErr
                  ("invalid data id: given dataId " ++ req.DataId ++ " not in tx " ++ req.TxHash)
            | some m =>
                if ¬ goStartsWith m "SUCCESS" then
                  migrateFail ErrorCodeInternalErr ("dataId migrate fails: " ++ m)
                else
                  match env.getOrder with
                  | .error e => migrateFail ErrorCodeInternalErr ("get order error: " ++ e)
                  | .ok order =>
                      match goMapGet order.Shards env.nodeAddress with
                      | none =>
                          migrateFail ErrorCodeInternalErr
                            ("no shard to current provider " ++ env.nodeAddress)
                      | some shard =>
                          if shard.From ≠ req.MigrateFrom then
                            migrateFail ErrorCodeInternalErr
                              ("unmatched migrate from: expected " ++ req.MigrateFrom ++
                                ", actual " ++ shard.From)
                          else if shard.Cid ≠ req.Cid then
                            migrateFail ErrorCodeInternalErr
                              ("unmatched cid: expected " ++ req.Cid ++ ", actual " ++ shard.Cid)
                          else if shard.Status ≠ ShardWaiting then
                            migrateFail ErrorCodeInternalErr
                              ("shard status is not invalid, expected ShardWaiting, actual " ++
                                toString shard.Status)
                          else if ¬ env.cidDecodeOk shard.Cid then
                            migrateFail ErrorCodeInternalErr ("invalid cid " ++ shard.Cid)
                          else
                            match env.storeResult with
                            | some e =>
                                migrateFail ErrorCodeInternalErr
                                  ("store cid " ++ shard.Cid ++ " error: " ++ e)
                            | none =>
                                match env.completeOrder with
                                | .error e =>
                                    migrateFail ErrorCodeInvalidTx
                                      ("complete order tx failed: " ++ e)
                                | .ok txres =>
                                    { Code := 0, Message := ""
                                      CompleteHash := txres.fst
                                      CompleteHeight := txres.snd }

/-- All verifications of `HandleShardMigrate`, as one decidable
conjunction mirroring the source's checks in order. -/
def migrateVerified (env : MigrateEnv) (req : ShardMigrateReq) : Bool :=
  match env.getTx with
  | .error _ => false
  | .ok txCode =>
      decide (txCode = 0) && env.txMsgDataOk &&
      (match env.migrateResult with
       | none => false
       | some result =>
           match goMapGet result req.DataId with
           | none => false
           | some m =>
               goStartsWith m "SUCCESS" &&
               (match env.getOrder with
                | .error _ => false
                | .ok order =>
                    match goMapGet order.Shards env.nodeAddress with
                    | none => false
                    | some shard =>
                        decide (shard.From = req.MigrateFrom) &&
                        decide (shard.Cid = req.Cid) &&
                        decide (shard.Status = ShardWaiting) &&
                        env.cidDecodeOk shard.Cid &&
                        decide (env.storeResult = none) &&
                        (match env.completeOrder with
                         | .error _ => false
                         | .ok _ => true)))

/-! ## `StoreSvc.HandleShardLoad` (part_006) -/

/-- Environment of one `HandleShardLoad` call: DID manager construction,
JWS verification, relay account lookup, chain height and shard store. -/
structure LoadEnv where
  newDidManager : String → Option String
  marshalProposal : QueryProposal → Except String (List Nat)
  base64urlEncode : List Nat → String
  verifyJws : String → JwsSignature → Option String
  getAccount : String → Except String Unit
  marshalRelayOk : Bool
  verifyAccountSig : Bool
  getLastHeight : Except String Int
  storeGet : String → Except String (List Nat)
  nowMs : Int

/-- Failure response of `HandleShardLoad` (`logAndRespond`). -/
def loadFail (env : LoadEnv) (req : ShardLoadReq) (code : Nat) (msg : String) :
    ShardLoadResp :=
  { Code := code, Message := msg, OrderId := req.OrderId, Cid := req.Cid
    Content := [], RequestId := req.RequestId, ResponseId := env.nowMs }

/-- Peer/relay gate of `HandleShardLoad` (after signature verification):
either the remote peer id occurs in the proposal's gateway multiaddr, or
a relay proposal naming the peer is presented (its account signature
check result is discarded by the source). -/
def loadPeerCheck (env : LoadEnv) (req : ShardLoadReq) (remotePeerId : String) :
    Option ShardLoadResp :=
  if goContains req.Proposal.Proposal.Gateway remotePeerId then none
  else
    if 0 < req.RelayProposal.Signature.length ∧
        goContains req.RelayProposal.Proposal.RelayPeerIds remotePeerId then
      match env.getAccount req.RelayProposal.Proposal.NodeAddress with
      | .error e =>
          some (loadFail env req ErrorCodeInternalErr
            ("failed to get gateway account info: " ++ e))
      | .ok _ =>
          if ¬ env.marshalRelayOk then
            some (loadFail env req ErrorCodeInternalErr "failed marshal relay proposal")
          else
            none
    else
      some (loadFail env req ErrorCodeInternalErr
        ("invalid query, unexpect gateway:" ++ remotePeerId ++ ", should be " ++
          req.Proposal.Proposal.Gateway))

/-- Height and store tail of `HandleShardLoad`. -/
def loadServe (env : LoadEnv) (req : ShardLoadReq) : ShardLoadResp :=
  match env.getLastHeight with
  | .error e =>
      loadFail env req ErrorCodeInternalErr ("get chain height error: " ++ e)
  | .ok lastHeight =>
      if req.Proposal.Proposal.LastValidHeight < (lastHeight.emod (2 ^ 64)).toNat then
        loadFail env req ErrorCodeInternalErr "invalid query, LastValidHeight too low"
      else
        match env.storeGet req.Cid with
        | .error e =>
            loadFail env req ErrorCodeInternalErr
              ("get " ++ req.Cid ++ " from store error: " ++ e)
        | .ok content =>
            { OrderId := req.OrderId, Cid := req.Cid, Content := content
              Code := 0, Message := "", RequestId := req.RequestId
              ResponseId := env.nowMs }

/-- `StoreSvc.HandleShardLoad`: build the DID manager for the proposal's
owner, verify the JWS of the re-marshalled query proposal, check the
requesting peer, check the proposal is still valid, then serve the bytes
from the local store.  There is no branch on the owner value: the
signature verification step runs for every owner, including `"all"`. -/
def HandleShardLoad (env : LoadEnv) (req : ShardLoadReq) (remotePeerId : String) :
    ShardLoadResp :=
  match env.newDidManager req.Proposal.Proposal.Owner with
  | some e => loadFail env req ErrorCodeInternalErr ("invalid did: " ++ e)
  | none =>
      match env.marshalProposal req.Proposal.Proposal with
      | .error e => loadFail env req ErrorCodeInternalErr ("marshal error: " ++ e)
      | .ok proposalBytes =>
          match env.verifyJws (env.base64urlEncode proposalBytes) req.Proposal.JwsSignature with
          | some e =>
              loadFail env req ErrorCodeInternalErr
                ("verify client order proposal signature failed: " ++ e)
          | none =>
              match loadPeerCheck env req remotePeerId with
              | some resp => resp
              | none => loadServe env req

/-! ## Gateway staging and coordinator (part_008) -/

/-- The staging area as a map from `(owner, cid)` to content. -/
abbrev Staging := List ((String × String) × List Nat)

def stagingGet (st : Staging) (k : String × String) : Option (List Nat) :=
  match st with
  | [] => none
  | (k2, v) :: rest => if k2 = k then some v else stagingGet rest k

/-- `StageShard` (gateway package): create or overwrite the staged file
at `staging/<owner>/<cid>`, following `ShardStaging.StageShard`. -/
def StageShard (st : Staging) (owner cid : String) (content : List Nat) : Staging :=
  ((owner, cid), content) :: st

/-- Modelled from the spec: the body of the gateway-level `UnstageShard`
is not among the sources (only its callers are); per the specification
the staged file keyed by `(owner, cid)` is deleted after unstage. -/
def UnstageShard (st : Staging) (owner cid : String) : Staging :=
  st.filter (fun kv => kv.fst ≠ (owner, cid))

/-- The fields of the client's store proposal read by `CommitModel`. -/
structure StoreProposal where
  Owner : String
  Cid : String
  DataId : String
  Timeout : Nat
  deriving DecidableEq

/-- Metadata returned by the chain query at the end of `CommitModel`. -/
structure ShardMeta where
  ShardId : Nat
  Cid : String
  Peer : String
  deriving DecidableEq

structure MetaResp where
  OrderId : Nat
  DataId : String
  Commit : String
  Commits : List String
  Shards : List (String × ShardMeta)
  deriving DecidableEq

/-- `gateway.CommitResult`. -/
structure CommitResult where
  OrderId : Nat
  DataId : String
  Commit : String
  Commits : List String
  Cid : String
  Shards : List (String × ShardMeta)
  deriving DecidableEq

/-- How the order-complete wait ends: first event, timeout elapsed, or
caller cancellation.  The source folds the last two into `timeout`. -/
inductive WaitKind where
  | completed
  | timedOut
  | cancelled
  deriving DecidableEq

/-- Environment of one `CommitModel` call. -/
structure GatewayEnv where
  storeOrder : Except String (Nat × String)
  orderReady : Nat → Except String String
  subscribeOrderComplete : Option String
  waitOutcome : WaitKind
  unsubscribeErr : Option String
  queryMeta : Except String MetaResp

/-- Wait-and-finish tail of `CommitModel`: wait for the order-complete
event (or timeout/cancel), unsubscribe (failure only logged), unstage
unconditionally, then fail on timeout or query the metadata. -/
def commitModelFinish (env : GatewayEnv) (st : Staging) (proposal : StoreProposal)
    (orderId : Nat) : Except String CommitResult × Staging :=
  let timeout := env.waitOutcome ≠ WaitKind.completed
  let st2 := UnstageShard st proposal.Owner proposal.Cid
  if timeout then
    (.error ("process order " ++ toString orderId ++ " timeout."), st2)
  else
    match env.queryMeta with
    | .error e => (.error e, st2)
    | .ok meta =>
        (.ok { OrderId := meta.OrderId, DataId := meta.DataId, Commit := meta.Commit
               Commits := meta.Commits, Shards := meta.Shards, Cid := proposal.Cid }, st2)

/-- `GatewaySvc.CommitModel`: stage the content under `(Owner, Cid)`,
submit `MsgStore` (for `orderId == 0`) or `MsgReady`, subscribe to the
order-complete event, and finish with `commitModelFinish`. -/
def CommitModel (env : GatewayEnv) (st : Staging) (proposal : StoreProposal)
    (orderId : Nat) (content : List Nat) : Except String CommitResult × Staging :=
  let st1 := StageShard st proposal.Owner proposal.Cid content
  if orderId = 0 then
    match env.storeOrder with
    | .error e => (.error e, st1)
    | .ok res =>
        match env.subscribeOrderComplete with
        | some e => (.error e, st1)
        | none => commitModelFinish env st1 proposal res.fst
  else
    match env.orderReady orderId with
    | .error e => (.error e, st1)
    | .ok _ =>
        match env.subscribeOrderComplete with
        | some e => (.error e, st1)
        | none => commitModelFinish env st1 proposal orderId

/-! ## `GatewaySvc.FetchContent` (part_008) -/

/-- Modelled from the spec: `types.Type_Prefix_File` is not among the
sources; the spec only requires a distinguished File alias marker
(`MODEL_TYPE_FILE = "File"` in part_004). -/
def Type_Prefix_File : String := "File"

/-- The File-alias test: `regexp.Match("^"+Type_Prefix_File, alias)`,
an anchored-prefix match. -/
def fileAliasMatch (a : String) : Bool := goStartsWith a Type_Prefix_File

/-- `filepath.Join` for the two-component case used here. -/
def pathJoin (dir file : String) : String := dir ++ "/" ++ file

/-- The fields of `types.Model` read by `FetchContent`. -/
structure Model where
  DataId : String
  Alias : String
  Cid : String
  Shards : List (String × ShardMeta)
  deriving DecidableEq

/-- `gateway.FetchResult`. -/
structure FetchResult where
  Cid : String
  Content : List Nat
  deriving DecidableEq

/-- Filesystem and IPFS writes performed by `FetchContent`. -/
structure FetchEffects where
  fileWrites : List (String × List Nat)
  ipfsWrites : List (String × List Nat)
  deriving DecidableEq

/-- Environment of one `FetchContent` call. -/
structure FetchEnv where
  nodeAddress : String
  storeManagerPresent : Bool
  cidDecodeOk : String → Bool
  localGet : String → Except String (List Nat)
  remoteFetch : String → String → Except String (List Nat)
  calculateCid : List Nat → String
  contentLimit : Nat
  ipfsEnable : Bool
  httpFilePath : Except String String
  createFileResult : Option String
  ipfsStoreResult : Option String

/-- Shard-assembly loop of `FetchContent`: fill `contentList` at index
`ShardId` (local store when the provider key is this gateway, remote
`ShardLoad` otherwise); a slot already filled is skipped.  Go slice
indexing panics when `ShardId` is out of range. -/
def fetchLoop (env : FetchEnv) (shards : List (String × ShardMeta))
    (acc : List (Option (List Nat))) : Except String (List (Option (List Nat))) :=
  match shards with
  | [] => .ok acc
  | (key, shard) :: rest =>
      if h : shard.ShardId < acc.length then
        if (acc.get ⟨shard.ShardId, h⟩).isSome then
          fetchLoop env rest acc
        else if ¬ env.cidDecodeOk shard.Cid then
          .error ("invalid cid " ++ shard.Cid)
        else
          match (if key = env.nodeAddress then
                   (if env.storeManagerPresent then env.localGet shard.Cid
                    else .error "local store manager not found")
                 else env.remoteFetch shard.Peer shard.Cid) with
          | .error e => .error e
          | .ok c => fetchLoop env rest (acc.set shard.ShardId (some c))
      else
        .error "panic: index out of range"

/-- Assembled model content: concatenation of the filled slots. -/
def assembleContent (env : FetchEnv) (meta : Model) : Except String (List Nat) :=
  match fetchLoop env meta.Shards (List.replicate meta.Shards.length none) with
  | .error e => .error e
  | .ok lst => .ok (lst.foldl (fun c oc => c ++ oc.getD []) [])

/-- Mirror branch of `FetchContent`: write the content to the HTTP file
server path, store it to IPFS when enabled, and clear the inline content
only when it exceeds the configured limit. -/
def fetchMirror (env : FetchEnv) (meta : Model) (content : List Nat)
    (contentCid : String) : Except String (FetchResult × FetchEffects) :=
  match env.httpFilePath with
  | .error e => .error e
  | .ok path =>
      match env.createFileResult with
      | some e => .error e
      | none =>
          let ipfsStep : Except String (List (String × List Nat)) :=
            if env.ipfsEnable then
              match env.ipfsStoreResult with
              | some e => .error e
              | none => .ok [(contentCid, content)]
            else .ok []
          match ipfsStep with
          | .error e => .error e
          | .ok ipfsWrites =>
              let dropped := if env.contentLimit < content.length then [] else content
              .ok ({ Cid := contentCid, Content := dropped },
                   { fileWrites := [(pathJoin path meta.DataId, content)]
                     ipfsWrites := ipfsWrites })

/-- `GatewaySvc.FetchContent`: assemble the shards, compute the content
cid (a mismatch with `meta.Cid` is only logged), and either mirror large
or File-aliased content or return it inline. -/
def FetchContent (env : FetchEnv) (meta : Model) :
    Except String (FetchResult × FetchEffects) :=
  match assembleContent env meta with
  | .error e => .error e
  | .ok content =>
      let contentCid := env.calculateCid content
      if env.contentLimit < content.length ∨ fileAliasMatch meta.Alias then
        fetchMirror env meta content contentCid
      else
        .ok ({ Cid := contentCid, Content := content },
             { fileWrites := [], ipfsWrites := [] })

/-! ## Verification-support definitions -/

/-- Occurrence count of a key in an index key list. -/
def countKey : List ShardKey → ShardKey → Nat
  | [], _ => 0
  | a :: l, k => (if a = k then 1 else 0) + countKey l k

/-- The shard index currently stored (zero value when absent or
mistyped). -/
def shardIndexOf (ds : DS) : List ShardKey :=
  match dsGet ds DsKey.shardIndexKey with
  | some (.shardIdx all) => all
  | _ => []

/-- The order index string currently stored. -/
def orderIndexOf (ds : DS) : String :=
  match dsGet ds DsKey.orderIndexKey with
  | some (.orderIdx all) => all
  | _ => ""

/-- The migrate index currently stored. -/
def migrateIndexOf (ds : DS) : List ShardKey :=
  match dsGet ds DsKey.migrateIndexKey with
  | some (.migrateIdx all) => all
  | _ => []

/-- The comma-append performed by `UpdateOrderIndex`. -/
def orderIdxAppend (all id : String) : String :=
  if 0 < all.length then all ++ "," ++ id else id

/-- The shard index slot decodes (or is absent). -/
def ShardIdxWellTyped (ds : DS) : Bool :=
  match dsGet ds DsKey.shardIndexKey with
  | none => true
  | some (.shardIdx _) => true
  | some _ => false

/-- The order index slot decodes (or is absent). -/
def OrderIdxWellTyped (ds : DS) : Bool :=
  match dsGet ds DsKey.orderIndexKey with
  | none => true
  | some (.orderIdx _) => true
  | some _ => false

/-- The migrate index slot decodes (or is absent). -/
def MigrateIdxWellTyped (ds : DS) : Bool :=
  match dsGet ds DsKey.migrateIndexKey with
  | none => true
  | some (.migrateIdx _) => true
  | some _ => false

/-- One datastore entry is well-typed for the shard namespace: shard
keys hold shard records and the shard index key holds an index. -/
def entryShardWellTyped : DsKey × DsVal → Bool
  | (DsKey.shardKey _ _, DsVal.shardRec _) => true
  | (DsKey.shardKey _ _, _) => false
  | (DsKey.shardIndexKey, DsVal.shardIdx _) => true
  | (DsKey.shardIndexKey, _) => false
  | _ => true

/-- Every entry of the datastore decodes in the shard namespace. -/
def DsShardWellTyped (ds : DS) : Bool := ds.all entryShardWellTyped

/-- Sequence of `SaveShard` operations. -/
def saveShardList (ds : DS) (ss : List ShardInfo) : DS :=
  ss.foldl (fun d s => (SaveShard d s).fst) ds

/-- Bound maintained by every persisted shard record: `Tries` never
exceeds `MAX_RETRIES`, and a record that reached the bound was
terminated. -/
def ShardRecTriesOk (s : ShardInfo) : Prop :=
  s.Tries ≤ MAX_RETRIES ∧ (s.Tries = MAX_RETRIES → s.State = ShardStateTerminate)

/-- Every shard record persisted in the datastore satisfies
`ShardRecTriesOk`. -/
def DsTriesInv (ds : DS) : Prop :=
  ∀ oid cid s, dsGet ds (DsKey.shardKey oid cid) = some (DsVal.shardRec s) →
    ShardRecTriesOk s

/-- `Except` success test. -/
def exceptOk : Except α β → Bool
  | .ok _ => true
  | .error _ => false

instance {ε α : Type} [DecidableEq ε] [DecidableEq α] : DecidableEq (Except ε α) :=
  fun x y =>
    match x, y with
    | .ok a, .ok b =>
        if h : a = b then isTrue (h ▸ rfl) else isFalse (fun hh => h (Except.ok.inj hh))
    | .error a, .error b =>
        if h : a = b then isTrue (h ▸ rfl) else isFalse (fun hh => h (Except.error.inj hh))
    | .ok _, .error _ => isFalse (fun hh => Except.noConfusion hh)
    | .error _, .ok _ => isFalse (fun hh => Except.noConfusion hh)

/-- Lifetime invariant of the shard index: the index decodes and every
key occurs in it exactly once if its record exists, zero times
otherwise. -/
def ShardLifetimeInv (ds : DS) : Prop :=
  ShardIdxWellTyped ds = true ∧
  ∀ k : ShardKey, countKey (shardIndexOf ds) k =
    if dsHas ds (DsKey.shardKey k.OrderId k.Cid) then 1 else 0

/-! ### Concrete sample inputs used by witnesses and counterexamples -/

/-- A worker environment in which every collaborator succeeds. -/
def procEnvOk : ProcEnv :=
  { nodeAddress := "nodeA"
    getLastHeight := .ok 10
    getNodePeer := .ok "peerG"
    requestShardStore := fun _ _ =>
      { OrderId := 1, Cid := "c1", Content := [1, 2], Code := 0, Message := ""
        RequestId := 0, ResponseId := 0 }
    calculateCid := fun _ => "c1"
    storeResult := none
    isExist := true
    completeOrder := .ok ("txh", 7)
    requestShardComplete := fun _ _ => { Code := 0, Message := "" } }

/-- A shard task on its third attempt. -/
def taskTries2 : ShardInfo :=
  { ShardInfo.zero with OrderId := 1, Cid := "c1", DataId := "d1", Tries := 2 }

/-- A worker environment whose gateway answers the `ShardLoad` request
with a failure code. -/
def procEnvLoadFail : ProcEnv :=
  { procEnvOk with
    requestShardStore := fun _ _ =>
      { OrderId := 1, Cid := "c1", Content := [], Code := 7
        Message := "gateway failure", RequestId := 0, ResponseId := 0 } }

/-- A fresh task served by a remote gateway. -/
def taskC4 : ShardInfo :=
  { ShardInfo.zero with OrderId := 1, Cid := "c1", DataId := "d1", Gateway := "gw1" }

/-- A worker environment whose gateway serves bytes hashing to a cid
different from the task's. -/
def procEnvBadCid : ProcEnv :=
  { procEnvOk with
    requestShardStore := fun _ _ =>
      { OrderId := 2, Cid := "c2", Content := [9], Code := 0, Message := ""
        RequestId := 0, ResponseId := 0 }
    calculateCid := fun _ => "other" }

/-- A fresh local-gateway task whose cid will not match the fetched
content. -/
def taskC5 : ShardInfo :=
  { ShardInfo.zero with OrderId := 2, Cid := "c2", DataId := "d2", Gateway := "nodeA" }

/-- A `HandleShardLoad` environment in which JWS verification fails (as
it must on the empty detached signature an `Owner == "all"` request
carries). -/
def loadEnvReject : LoadEnv :=
  { newDidManager := fun _ => none
    marshalProposal := fun _ => .ok []
    base64urlEncode := fun _ => ""
    verifyJws := fun _ _ => some "invalid signature"
    getAccount := fun _ => .ok ()
    marshalRelayOk := true
    verifyAccountSig := true
    getLastHeight := .ok 5
    storeGet := fun _ => .ok [7]
    nowMs := 0 }

/-- The same environment with signature verification succeeding. -/
def loadEnvAccept : LoadEnv :=
  { loadEnvReject with verifyJws := fun _ _ => none }

/-- An unsigned public query, as `buildQueryRequest` builds it for
`Owner == "all"` (no JWS attached). -/
def reqAll : ShardLoadReq :=
  { OrderId := 9, Owner := "all", Cid := "c9"
    Proposal :=
      { Proposal :=
          { QueryProposal.zero with
              Owner := "all", Gateway := "maddr-peer1", LastValidHeight := 100 }
        JwsSignature := JwsSignature.zero }
    RelayProposal := RelayProposal.zero
    RequestId := 1 }

/-- An all-checks-pass migration environment. -/
def migrateEnvOk : MigrateEnv :=
  { nodeAddress := "prov2"
    getTx := .ok 0
    txMsgDataOk := true
    migrateResult := some [("d1", "SUCCESS: ok")]
    getOrder := .ok
      { Id := 5, Owner := "ow", Provider := "gw", Operation := 1, Expire := 0
        Shards := [("prov2", { From := "prov1", Cid := "c5", Status := ShardWaiting })] }
    cidDecodeOk := fun _ => true
    storeResult := none
    completeOrder := .ok ("ctx", 44) }

/-- The matching migration request. -/
def migrateReqOk : ShardMigrateReq :=
  { MigrateFrom := "prov1", OrderId := 5, DataId := "d1", TxHash := "th"
    TxHeight := 3, Cid := "c5", Content := [1] }

/-- A gateway environment in which the commit completes. -/
def gatewayEnvOk : GatewayEnv :=
  { storeOrder := .ok (11, "tx11")
    orderReady := fun _ => .ok "tx12"
    subscribeOrderComplete := none
    waitOutcome := WaitKind.completed
    unsubscribeErr := none
    queryMeta := .ok
      { OrderId := 11, DataId := "d7", Commit := "cm1", Commits := ["cm1"], Shards := [] } }

/-- The commit proposal used by the gateway witnesses. -/
def proposalC7 : StoreProposal :=
  { Owner := "ow1", Cid := "cid7", DataId := "d7", Timeout := 30 }

/-- A fetch environment with a 10-byte inline limit and one local
shard. -/
def fetchEnvC8 : FetchEnv :=
  { nodeAddress := "gw"
    storeManagerPresent := true
    cidDecodeOk := fun _ => true
    localGet := fun _ => .ok [1, 2, 3]
    remoteFetch := fun _ _ => .error "unused"
    calculateCid := fun _ => "c0"
    contentLimit := 10
    ipfsEnable := false
    httpFilePath := .ok "/srv/http"
    createFileResult := none
    ipfsStoreResult := none }

/-- A small File-aliased model. -/
def metaC8 : Model :=
  { DataId := "d1", Alias := "File-doc", Cid := "c0"
    Shards := [("gw", { ShardId := 0, Cid := "c0", Peer := "p0" })] }

/-! ## Shared lemmas about the datastore -/

theorem dsGet_put_self (k : DsKey) (v : DsVal) (ds : DS) :
    dsGet (dsPut k v ds) k = some v := by
  simp [dsGet, dsPut]

theorem dsGet_put_ne {k1 k2 : DsKey} (v : DsVal) (ds : DS) (h : k1 ≠ k2) :
    dsGet (dsPut k1 v ds) k2 = dsGet ds k2 := by
  simp [dsGet, dsPut, h]

theorem countKey_append (l1 l2 : List ShardKey) (k : ShardKey) :
    countKey (l1 ++ l2) k = countKey l1 k + countKey l2 k := by
  induction l1 with
  | nil => simp [countKey]
  | cons a l ih => simp [countKey, ih]; omega

theorem saveShard_existing {ds : DS} {s : ShardInfo}
    (h : dsHas ds (DsKey.shardKey s.OrderId s.Cid) = true) :
    SaveShard ds s = (dsPut (DsKey.shardKey s.OrderId s.Cid) (DsVal.shardRec s) ds, none) := by
  simp [SaveShard, h]

theorem saveShard_fresh {ds : DS} {s : ShardInfo}
    (hwt : ShardIdxWellTyped ds = true)
    (h : dsHas ds (DsKey.shardKey s.OrderId s.Cid) = false) :
    SaveShard ds s =
      (dsPut DsKey.shardIndexKey
        (DsVal.shardIdx (shardIndexOf ds ++ [⟨s.OrderId, s.Cid⟩]))
        (dsPut (DsKey.shardKey s.OrderId s.Cid) (DsVal.shardRec s) ds), none) := by
  have hne : DsKey.shardKey s.OrderId s.Cid ≠ DsKey.shardIndexKey := by simp
  have hidx : dsGet (dsPut (DsKey.shardKey s.OrderId s.Cid) (DsVal.shardRec s) ds)
      DsKey.shardIndexKey = dsGet ds DsKey.shardIndexKey := dsGet_put_ne _ _ hne
  unfold SaveShard
  simp only [h, Bool.false_eq_true, if_false, UpdateShardIndex, hidx]
  unfold ShardIdxWellTyped at hwt
  unfold shardIndexOf
  rcases hg : dsGet ds DsKey.shardIndexKey with _ | v
  · simp
  · cases v <;> simp_all

theorem saveOrder_existing {ds : DS} {o : OrderInfo}
    (h : dsHas ds (DsKey.orderKey o.DataId) = true) :
    SaveOrder ds o = (dsPut (DsKey.orderKey o.DataId) (DsVal.orderRec o) ds, none) := by
  simp [SaveOrder, h]

theorem saveOrder_fresh {ds : DS} {o : OrderInfo}
    (hwt : OrderIdxWellTyped ds = true)
    (h : dsHas ds (DsKey.orderKey o.DataId) = false) :
    SaveOrder ds o =
      (dsPut DsKey.orderIndexKey
        (DsVal.orderIdx (orderIdxAppend (orderIndexOf ds) o.DataId))
        (dsPut (DsKey.orderKey o.DataId) (DsVal.orderRec o) ds), none) := by
  have hne : DsKey.orderKey o.DataId ≠ DsKey.orderIndexKey := by simp
  have hidx : dsGet (dsPut (DsKey.orderKey o.DataId) (DsVal.orderRec o) ds)
      DsKey.orderIndexKey = dsGet ds DsKey.orderIndexKey := dsGet_put_ne _ _ hne
  unfold SaveOrder
  simp only [h, Bool.false_eq_true, if_false, UpdateOrderIndex, hidx]
  unfold OrderIdxWellTyped at hwt
  unfold orderIndexOf orderIdxAppend
  rcases hg : dsGet ds DsKey.orderIndexKey with _ | v
  · simp
  · rw [hg] at hwt
    cases v with
    | orderRec o2 => simp at hwt
    | shardRec s2 => simp at hwt
    | migrateRec m2 => simp at hwt
    | shardIdx l => simp at hwt
    | migrateIdx l => simp at hwt
    | orderIdx all => by_cases hl : 0 < all.length <;> simp [hl]

theorem saveMigrate_existing {ds : DS} {m : MigrateInfo}
    (h : dsHas ds (DsKey.migrateKey m.OrderId m.Cid) = true) :
    SaveMigrate ds m = (dsPut (DsKey.migrateKey m.OrderId m.Cid) (DsVal.migrateRec m) ds, none) := by
  simp [SaveMigrate, h]

theorem saveMigrate_fresh {ds : DS} {m : MigrateInfo}
    (hwt : MigrateIdxWellTyped ds = true)
    (h : dsHas ds (DsKey.migrateKey m.OrderId m.Cid) = false) :
    SaveMigrate ds m =
      (dsPut DsKey.migrateIndexKey
        (DsVal.migrateIdx (migrateIndexOf ds ++ [⟨m.OrderId, m.Cid⟩]))
        (dsPut (DsKey.migrateKey m.OrderId m.Cid) (DsVal.migrateRec m) ds), none) := by
  have hne : DsKey.migrateKey m.OrderId m.Cid ≠ DsKey.migrateIndexKey := by simp
  have hidx : dsGet (dsPut (DsKey.migrateKey m.OrderId m.Cid) (DsVal.migrateRec m) ds)
      DsKey.migrateIndexKey = dsGet ds DsKey.migrateIndexKey := dsGet_put_ne _ _ hne
  unfold SaveMigrate
  simp only [h, Bool.false_eq_true, if_false, UpdateMigrateIndex, hidx]
  unfold MigrateIdxWellTyped at hwt
  unfold migrateIndexOf
  rcases hg : dsGet ds DsKey.migrateIndexKey with _ | v
  · simp
  · cases v <;> simp_all

theorem shardKey_eq_iff (k : ShardKey) (oid : Nat) (cid : String) :
    DsKey.shardKey k.OrderId k.Cid = DsKey.shardKey oid cid ↔ k = ⟨oid, cid⟩ := by
  rcases k with ⟨a, b⟩
  simp

theorem shardLifetimeInv_step {ds : DS} (s : ShardInfo)
    (h : ShardLifetimeInv ds) : ShardLifetimeInv (SaveShard ds s).fst := by
  obtain ⟨hwt, hcount⟩ := h
  by_cases hex : dsHas ds (DsKey.shardKey s.OrderId s.Cid) = true
  · rw [saveShard_existing hex]
    refine ⟨?_, ?_⟩
    · unfold ShardIdxWellTyped at hwt ⊢
      rwa [dsGet_put_ne _ _ (by simp)]
    · intro k
      have hidx : shardIndexOf (dsPut (DsKey.shardKey s.OrderId s.Cid) (DsVal.shardRec s) ds)
          = shardIndexOf ds := by
        unfold shardIndexOf
        rw [dsGet_put_ne _ _ (by simp)]
      rw [hidx]
      by_cases hk : k = (⟨s.OrderId, s.Cid⟩ : ShardKey)
      · subst hk
        have hhas : dsHas (dsPut (DsKey.shardKey s.OrderId s.Cid) (DsVal.shardRec s) ds)
            (DsKey.shardKey s.OrderId s.Cid) = true := by
          simp [dsHas, dsGet_put_self]
        simpa [hhas, hex] using hcount ⟨s.OrderId, s.Cid⟩
      · have hne : DsKey.shardKey s.OrderId s.Cid ≠ DsKey.shardKey k.OrderId k.Cid := by
          intro hh
          exact hk ((shardKey_eq_iff k s.OrderId s.Cid).mp hh.symm)
        have hhas : dsHas (dsPut (DsKey.shardKey s.OrderId s.Cid) (DsVal.shardRec s) ds)
            (DsKey.shardKey k.OrderId k.Cid) = dsHas ds (DsKey.shardKey k.OrderId k.Cid) := by
          simp [dsHas, dsGet_put_ne _ _ hne]
        rw [hhas]
        exact hcount k
  · have hex2 : dsHas ds (DsKey.shardKey s.OrderId s.Cid) = false := by
      revert hex; cases dsHas ds (DsKey.shardKey s.OrderId s.Cid) <;> simp
    rw [saveShard_fresh hwt hex2]
    refine ⟨?_, ?_⟩
    · unfold ShardIdxWellTyped
      rw [dsGet_put_self]
    · intro k
      have hidx : shardIndexOf
          (dsPut DsKey.shardIndexKey
            (DsVal.shardIdx (shardIndexOf ds ++ [⟨s.OrderId, s.Cid⟩]))
            (dsPut (DsKey.shardKey s.OrderId s.Cid) (DsVal.shardRec s) ds))
          = shardIndexOf ds ++ [⟨s.OrderId, s.Cid⟩] := by
        unfold shardIndexOf
        rw [dsGet_put_self]
      rw [hidx, countKey_append]
      by_cases hk : k = (⟨s.OrderId, s.Cid⟩ : ShardKey)
      · subst hk
        have hhas : dsHas (dsPut DsKey.shardIndexKey
            (DsVal.shardIdx (shardIndexOf ds ++ [⟨s.OrderId, s.Cid⟩]))
            (dsPut (DsKey.shardKey s.OrderId s.Cid) (DsVal.shardRec s) ds))
            (DsKey.shardKey s.OrderId s.Cid) = true := by
          simp [dsHas,
            dsGet_put_ne _ _ (by simp : DsKey.shardIndexKey ≠ DsKey.shardKey s.OrderId s.Cid),
            dsGet_put_self]
        have hc := hcount ⟨s.OrderId, s.Cid⟩
        simp only [hex2] at hc
        simp [countKey, hhas, hc]
      · have hne : DsKey.shardKey s.OrderId s.Cid ≠ DsKey.shardKey k.OrderId k.Cid := by
          intro hh
          exact hk ((shardKey_eq_iff k s.OrderId s.Cid).mp hh.symm)
        have hhas : dsHas (dsPut DsKey.shardIndexKey
            (DsVal.shardIdx (shardIndexOf ds ++ [⟨s.OrderId, s.Cid⟩]))
            (dsPut (DsKey.shardKey s.OrderId s.Cid) (DsVal.shardRec s) ds))
            (DsKey.shardKey k.OrderId k.Cid) = dsHas ds (DsKey.shardKey k.OrderId k.Cid) := by
          simp [dsHas,
            dsGet_put_ne _ _ (by simp : DsKey.shardIndexKey ≠ DsKey.shardKey k.OrderId k.Cid),
            dsGet_put_ne _ _ hne]
        rw [hhas]
        have hks : (⟨s.OrderId, s.Cid⟩ : ShardKey) ≠ k := fun hh => hk hh.symm
        simp [countKey, hks, hcount k]

theorem shardLifetimeInv_fold (ss : List ShardInfo) {ds : DS}
    (h : ShardLifetimeInv ds) : ShardLifetimeInv (saveShardList ds ss) := by
  induction ss generalizing ds with
  | nil => exact h
  | cons s rest ih =>
      have hstep := shardLifetimeInv_step s h
      simpa [saveShardList] using ih hstep

theorem shardLifetimeInv_empty : ShardLifetimeInv [] := by
  constructor
  · rfl
  · intro k
    simp [countKey, shardIndexOf, dsGet, dsHas]

/-- C6: every save (order, shard, migrate) writes the record under its
key and appends the key to the corresponding index only when the record
did not previously exist; re-saving an existing record leaves the index
untouched; and over any sequence of shard saves starting from an empty
store, a key occurs in the shard index exactly once when its record
exists and never otherwise.  In the write log, the record binding sits
below the index binding, i.e. it is written first. -/
theorem c6_save_appends_index_once :
    (∀ (ds : DS) (s : ShardInfo),
        dsHas ds (DsKey.shardKey s.OrderId s.Cid) = true →
        SaveShard ds s =
          (dsPut (DsKey.shardKey s.OrderId s.Cid) (DsVal.shardRec s) ds, none)) ∧
    (∀ (ds : DS) (s : ShardInfo),
        ShardIdxWellTyped ds = true →
        dsHas ds (DsKey.shardKey s.OrderId s.Cid) = false →
        SaveShard ds s =
          (dsPut DsKey.shardIndexKey
            (DsVal.shardIdx (shardIndexOf ds ++ [⟨s.OrderId, s.Cid⟩]))
            (dsPut (DsKey.shardKey s.OrderId s.Cid) (DsVal.shardRec s) ds), none)) ∧
    (∀ (ds : DS) (o : OrderInfo),
        dsHas ds (DsKey.orderKey o.DataId) = true →
        SaveOrder ds o =
          (dsPut (DsKey.orderKey o.DataId) (DsVal.orderRec o) ds, none)) ∧
    (∀ (ds : DS) (o : OrderInfo),
        OrderIdxWellTyped ds = true →
        dsHas ds (DsKey.orderKey o.DataId) = false →
        SaveOrder ds o =
          (dsPut DsKey.orderIndexKey
            (DsVal.orderIdx (orderIdxAppend (orderIndexOf ds) o.DataId))
            (dsPut (DsKey.orderKey o.DataId) (DsVal.orderRec o) ds), none)) ∧
    (∀ (ds : DS) (m : MigrateInfo),
        dsHas ds (DsKey.migrateKey m.OrderId m.Cid) = true →
        SaveMigrate ds m =
          (dsPut (DsKey.migrateKey m.OrderId m.Cid) (DsVal.migrateRec m) ds, none)) ∧
    (∀ (ds : DS) (m : MigrateInfo),
        MigrateIdxWellTyped ds = true →
        dsHas ds (DsKey.migrateKey m.OrderId m.Cid) = false →
        SaveMigrate ds m =
          (dsPut DsKey.migrateIndexKey
            (DsVal.migrateIdx (migrateIndexOf ds ++ [⟨m.OrderId, m.Cid⟩]))
            (dsPut (DsKey.migrateKey m.OrderId m.Cid) (DsVal.migrateRec m) ds), none)) ∧
    (∀ (ss : List ShardInfo) (k : ShardKey),
        countKey (shardIndexOf (saveShardList [] ss)) k =
          if dsHas (saveShardList [] ss) (DsKey.shardKey k.OrderId k.Cid) then 1 else 0) :=
  ⟨fun _ _ h => saveShard_existing h,
   fun _ _ hwt h => saveShard_fresh hwt h,
   fun _ _ h => saveOrder_existing h,
   fun _ _ hwt h => saveOrder_fresh hwt h,
   fun _ _ h => saveMigrate_existing h,
   fun _ _ hwt h => saveMigrate_fresh hwt h,
   fun ss k => (shardLifetimeInv_fold ss shardLifetimeInv_empty).2 k⟩

/-- Witness for C6 at concrete inputs: a re-save leaves the index
untouched, and after saving the same record twice from the empty store
its key occurs in the index exactly once. -/
theorem c6_witness :
    SaveShard (SaveShard [] taskTries2).fst taskTries2 =
      (dsPut (DsKey.shardKey taskTries2.OrderId taskTries2.Cid)
        (DsVal.shardRec taskTries2) (SaveShard [] taskTries2).fst, none) ∧
    countKey (shardIndexOf (saveShardList [] [taskTries2, taskTries2])) ⟨1, "c1"⟩ = 1 := by
  constructor
  · exact c6_save_appends_index_once.1 _ taskTries2 (by decide)
  · have h := c6_save_appends_index_once.2.2.2.2.2.2 [taskTries2, taskTries2] ⟨1, "c1"⟩
    rw [h]
    decide

/-! ## Lemmas for the worker Tries bound (C1) -/

theorem triesOk_of_le2 (s : ShardInfo) (h : s.Tries ≤ 2) : ShardRecTriesOk s := by
  refine ⟨?_, ?_⟩
  · unfold MAX_RETRIES
    omega
  · intro h3
    unfold MAX_RETRIES at h3
    omega

theorem updateShardIndex_ok_shape {ds ds2 : DS} {oid : Nat} {cid : String}
    (h : UpdateShardIndex ds oid cid = .ok ds2) :
    ∃ l, ds2 = dsPut DsKey.shardIndexKey (DsVal.shardIdx l) ds := by
  unfold UpdateShardIndex at h
  rcases hg : dsGet ds DsKey.shardIndexKey with _ | v
  · rw [hg] at h
    simp at h
    exact ⟨_, h.symm⟩
  · rw [hg] at h
    cases v <;> simp at h
    exact ⟨_, h.symm⟩

theorem saveShard_shape (ds : DS) (s : ShardInfo) :
    (SaveShard ds s).fst = dsPut (DsKey.shardKey s.OrderId s.Cid) (DsVal.shardRec s) ds ∨
    ∃ l, (SaveShard ds s).fst =
      dsPut DsKey.shardIndexKey (DsVal.shardIdx l)
        (dsPut (DsKey.shardKey s.OrderId s.Cid) (DsVal.shardRec s) ds) := by
  unfold SaveShard
  by_cases hex : dsHas ds (DsKey.shardKey s.OrderId s.Cid)
  · left
    simp [hex]
  · simp only [hex, Bool.false_eq_true, if_false]
    rcases hu : UpdateShardIndex (dsPut (DsKey.shardKey s.OrderId s.Cid) (DsVal.shardRec s) ds)
        s.OrderId s.Cid with e | ds2
    · left
      simp
    · right
      obtain ⟨l, hl⟩ := updateShardIndex_ok_shape hu
      exact ⟨l, by simp [hl]⟩

theorem dsGet_saveShard_self (ds : DS) (s : ShardInfo) :
    dsGet (SaveShard ds s).fst (DsKey.shardKey s.OrderId s.Cid) =
      some (DsVal.shardRec s) := by
  rcases saveShard_shape ds s with h | ⟨l, h⟩
  · rw [h, dsGet_put_self]
  · rw [h, dsGet_put_ne _ _ (by simp), dsGet_put_self]

theorem saveShard_triesInv {ds : DS} {s : ShardInfo}
    (hds : DsTriesInv ds) (hs : ShardRecTriesOk s) :
    DsTriesInv (SaveShard ds s).fst := by
  intro oid cid r hr
  rcases saveShard_shape ds s with h | ⟨l, h⟩ <;> rw [h] at hr
  · by_cases hk : DsKey.shardKey s.OrderId s.Cid = DsKey.shardKey oid cid
    · rw [← hk, dsGet_put_self] at hr
      cases hr
      exact hs
    · rw [dsGet_put_ne _ _ hk] at hr
      exact hds oid cid r hr
  · rw [dsGet_put_ne _ _ (by simp)] at hr
    by_cases hk : DsKey.shardKey s.OrderId s.Cid = DsKey.shardKey oid cid
    · rw [← hk, dsGet_put_self] at hr
      cases hr
      exact hs
    · rw [dsGet_put_ne _ _ hk] at hr
      exact hds oid cid r hr

theorem updateShardError_triesInv {ds : DS} {shard : ShardInfo} {msg : String}
    (hds : DsTriesInv ds) (hs : ShardRecTriesOk shard) :
    DsTriesInv ((updateShardError ds shard (some msg)).getD ds) := by
  unfold updateShardError
  exact saveShard_triesInv hds hs

theorem processNotify_triesInv (env : ProcEnv) {ds : DS} (task : ShardInfo) (peer : String)
    (hds : DsTriesInv ds) (ht : task.Tries ≤ 2) :
    DsTriesInv (processNotify env ds task peer).snd := by
  unfold processNotify
  have h1 : DsTriesInv (if (env.requestShardComplete
      { OrderId := task.OrderId, DataId := task.DataId, Cids := [task.Cid]
        Height := task.CompleteHeight, TxHash := task.CompleteHash } peer).Code ≠ 0 then
      ((updateShardError ds task (some (env.requestShardComplete
        { OrderId := task.OrderId, DataId := task.DataId, Cids := [task.Cid]
          Height := task.CompleteHeight, TxHash := task.CompleteHash } peer).Message)).getD ds)
    else ds) := by
    split
    · exact updateShardError_triesInv hds (triesOk_of_le2 _ ht)
    · exact hds
  split
  · exact saveShard_triesInv h1 (triesOk_of_le2 _ ht)
  · exact h1

theorem processTx_triesInv (env : ProcEnv) {ds : DS} (task : ShardInfo) (peer : String)
    (hds : DsTriesInv ds) (ht : task.Tries ≤ 2) :
    DsTriesInv (processTx env ds task peer).snd := by
  unfold processTx
  split
  · rcases env.completeOrder with e | txres
    · exact updateShardError_triesInv hds (triesOk_of_le2 _ ht)
    · exact processNotify_triesInv env _ peer
        (saveShard_triesInv hds (triesOk_of_le2 _ ht)) ht
  · exact processNotify_triesInv env _ peer hds ht

theorem processMarkStored_triesInv (env : ProcEnv) {ds : DS} (task : ShardInfo) (peer : String)
    (hds : DsTriesInv ds) (ht : task.Tries ≤ 2) :
    DsTriesInv (processMarkStored env ds task peer).snd := by
  unfold processMarkStored
  exact processTx_triesInv env _ peer (saveShard_triesInv hds (triesOk_of_le2 _ ht)) ht

theorem processStore_triesInv (env : ProcEnv) {ds : DS} (task : ShardInfo) (peer : String)
    (hds : DsTriesInv ds) (ht : task.Tries ≤ 2) :
    DsTriesInv (processStore env ds task peer).snd := by
  unfold processStore
  dsimp only
  repeat' split
  all_goals
    first
      | exact hds
      | exact updateShardError_triesInv hds (triesOk_of_le2 _ ht)
      | exact processMarkStored_triesInv env _ peer hds ht
      | exact processTx_triesInv env _ peer hds ht

theorem processResolve_triesInv (env : ProcEnv) {ds : DS} (task : ShardInfo)
    (hds : DsTriesInv ds) (ht : task.Tries ≤ 2) :
    DsTriesInv (processResolve env ds task).snd := by
  unfold processResolve
  repeat' split
  all_goals
    first
      | exact hds
      | exact updateShardError_triesInv hds (triesOk_of_le2 _ ht)
      | exact processStore_triesInv env _ _ hds ht

theorem processExpire_triesInv (env : ProcEnv) {ds : DS} (task : ShardInfo)
    (hds : DsTriesInv ds) (ht : task.Tries ≤ 2) :
    DsTriesInv (processExpire env ds task).snd := by
  unfold processExpire
  repeat' split
  all_goals
    first
      | exact hds
      | exact updateShardError_triesInv hds (triesOk_of_le2 _ ht)
      | exact processResolve_triesInv env _ hds ht

/-- C1: an attempt on a non-terminated task increments `Tries`; when the
incremented value reaches `MAX_RETRIES` the worker persists the record
with `State = Terminate` and fails with `ErrRetriesExceed`; and a
datastore whose shard records satisfy the `Tries ≤ MAX_RETRIES` bound
(with forced terminate at the bound) still satisfies it after any
attempt on a task that is either below two tries or already
terminated — exactly the tasks the queue can carry. -/
theorem c1_tries_bound_and_terminate (env : ProcEnv) (ds : DS) (task : ShardInfo)
    (hds : DsTriesInv ds)
    (htask : task.Tries ≤ 2 ∨ task.State = ShardStateTerminate) :
    (task.State ≠ ShardStateTerminate → MAX_RETRIES ≤ task.Tries + 1 →
      (process env ds task).fst =
        ProcResult.fail ErrT.retriesExceed
          (retriesMsg { task with Tries := task.Tries + 1, State := ShardStateTerminate }) ∧
      dsGet (process env ds task).snd (DsKey.shardKey task.OrderId task.Cid) =
        some (DsVal.shardRec
          { task with
              Tries := task.Tries + 1,
              State := ShardStateTerminate,
              LastErr := retriesMsg
                { task with Tries := task.Tries + 1, State := ShardStateTerminate } })) ∧
    DsTriesInv (process env ds task).snd := by
  by_cases hstate : task.State = ShardStateTerminate
  · refine ⟨fun h _ => absurd hstate h, ?_⟩
    unfold process
    rw [if_pos hstate]
    exact hds
  · have ht2 : task.Tries ≤ 2 := by
      rcases htask with h | h
      · exact h
      · exact absurd h hstate
    have hmod : (task.Tries + 1) % 2 ^ 64 = task.Tries + 1 :=
      Nat.mod_eq_of_lt (by omega)
    refine ⟨?_, ?_⟩
    · intro _ hge
      unfold process
      rw [if_neg hstate]
      simp only [hmod]
      rw [if_pos (by simpa using hge)]
      refine ⟨rfl, ?_⟩
      simp only [updateShardError, Option.getD_some]
      exact dsGet_saveShard_self _ _
    · unfold process
      rw [if_neg hstate]
      simp only [hmod]
      by_cases hge : MAX_RETRIES ≤ task.Tries + 1
      · rw [if_pos hge]
        simp only [updateShardError, Option.getD_some]
        apply saveShard_triesInv hds
        have h3 : task.Tries + 1 = MAX_RETRIES := by
          unfold MAX_RETRIES at hge ⊢
          omega
        exact ⟨le_of_eq h3, fun _ => rfl⟩
      · rw [if_neg hge]
        exact processExpire_triesInv env _ hds (by
          show task.Tries + 1 ≤ 2
          unfold MAX_RETRIES at hge
          omega)

/-- Witness for C1: a task on its third attempt is terminated, persisted
with `Tries = 3`, and the attempt fails with the retries-exceeded
error. -/
theorem c1_witness :
    (process procEnvOk [] taskTries2).fst =
      ProcResult.fail ErrT.retriesExceed
        (retriesMsg { taskTries2 with Tries := 3, State := ShardStateTerminate }) ∧
    DsTriesInv (process procEnvOk [] taskTries2).snd := by
  have h := c1_tries_bound_and_terminate procEnvOk [] taskTries2
    (by intro oid cid s hh; simp [dsGet] at hh)
    (Or.inl (by decide))
  exact ⟨(h.1 (by decide) (by decide)).1, h.2⟩

/-! ## Lemmas for restart recovery (C2) -/

theorem dsGet_mem {ds : DS} {k : DsKey} {v : DsVal} (h : dsGet ds k = some v) :
    (k, v) ∈ ds := by
  induction ds with
  | nil => simp [dsGet] at h
  | cons a rest ih =>
      rcases a with ⟨k2, v2⟩
      by_cases hk : k2 = k
      · subst hk
        simp [dsGet] at h
        subst h
        exact List.mem_cons_self _ _
      · simp [dsGet, hk] at h
        exact List.mem_cons_of_mem _ (ih h)

theorem getShard_ok_of_wt {ds : DS} (hwt : DsShardWellTyped ds = true)
    (oid : Nat) (cid : String) :
    GetShard ds oid cid = .ok (getShardIgnoringError ds oid cid) := by
  unfold getShardIgnoringError
  unfold GetShard
  rcases hg : dsGet ds (DsKey.shardKey oid cid) with _ | v
  · rfl
  · cases v with
    | shardRec s => rfl
    | orderRec o =>
        have := List.all_eq_true.mp hwt _ (dsGet_mem hg)
        simp [entryShardWellTyped] at this
    | migrateRec m =>
        have := List.all_eq_true.mp hwt _ (dsGet_mem hg)
        simp [entryShardWellTyped] at this
    | orderIdx a =>
        have := List.all_eq_true.mp hwt _ (dsGet_mem hg)
        simp [entryShardWellTyped] at this
    | shardIdx a =>
        have := List.all_eq_true.mp hwt _ (dsGet_mem hg)
        simp [entryShardWellTyped] at this
    | migrateIdx a =>
        have := List.all_eq_true.mp hwt _ (dsGet_mem hg)
        simp [entryShardWellTyped] at this

theorem getShardIndex_ok_of_wt {ds : DS} (hwt : DsShardWellTyped ds = true) :
    GetShardIndex ds = .ok (shardIndexOf ds) := by
  unfold GetShardIndex shardIndexOf
  rcases hg : dsGet ds DsKey.shardIndexKey with _ | v
  · rfl
  · cases v with
    | shardIdx a => rfl
    | orderRec o =>
        have := List.all_eq_true.mp hwt _ (dsGet_mem hg)
        simp [entryShardWellTyped] at this
    | shardRec s =>
        have := List.all_eq_true.mp hwt _ (dsGet_mem hg)
        simp [entryShardWellTyped] at this
    | migrateRec m =>
        have := List.all_eq_true.mp hwt _ (dsGet_mem hg)
        simp [entryShardWellTyped] at this
    | orderIdx a =>
        have := List.all_eq_true.mp hwt _ (dsGet_mem hg)
        simp [entryShardWellTyped] at this
    | migrateIdx a =>
        have := List.all_eq_true.mp hwt _ (dsGet_mem hg)
        simp [entryShardWellTyped] at this

theorem pendingLoop_eq {ds : DS} (hwt : DsShardWellTyped ds = true)
    (keys : List ShardKey) :
    pendingLoop ds keys = .ok
      ((keys.map (fun k => getShardIgnoringError ds k.OrderId k.Cid)).filter
        (fun s => decide (s.State ≠ ShardStateComplete ∧ s.State ≠ ShardStateTerminate))) := by
  induction keys with
  | nil => simp [pendingLoop]
  | cons k rest ih =>
      unfold pendingLoop
      rw [getShard_ok_of_wt hwt, ih]
      by_cases hcond : (getShardIgnoringError ds k.OrderId k.Cid).State ≠ ShardStateComplete ∧
          (getShardIgnoringError ds k.OrderId k.Cid).State ≠ ShardStateTerminate
      · simp [hcond]
      · simp [hcond]

/-- C2: startup recovery enqueues exactly the indexed shard records
whose persisted state is neither `Complete` nor `Terminate`: the queue
equals the filtered index listing; no enqueued record is in a terminal
state; and every indexed non-terminal record is enqueued. -/
theorem c2_recovery_enqueues_pending (ds : DS) (hwt : DsShardWellTyped ds = true) :
    processIncompleteShards ds =
      ((shardIndexOf ds).map (fun k => getShardIgnoringError ds k.OrderId k.Cid)).filter
        (fun s => decide (s.State ≠ ShardStateComplete ∧ s.State ≠ ShardStateTerminate)) ∧
    (∀ s ∈ processIncompleteShards ds,
        s.State ≠ ShardStateComplete ∧ s.State ≠ ShardStateTerminate) ∧
    (∀ k ∈ shardIndexOf ds,
        (getShardIgnoringError ds k.OrderId k.Cid).State ≠ ShardStateComplete →
        (getShardIgnoringError ds k.OrderId k.Cid).State ≠ ShardStateTerminate →
        getShardIgnoringError ds k.OrderId k.Cid ∈ processIncompleteShards ds) := by
  have heq : processIncompleteShards ds =
      ((shardIndexOf ds).map (fun k => getShardIgnoringError ds k.OrderId k.Cid)).filter
        (fun s => decide (s.State ≠ ShardStateComplete ∧ s.State ≠ ShardStateTerminate)) := by
    unfold processIncompleteShards getPendingShardList
    rw [getShardIndex_ok_of_wt hwt]
    dsimp only
    rw [pendingLoop_eq hwt]
  refine ⟨heq, ?_, ?_⟩
  · intro s hs
    rw [heq] at hs
    have := List.of_mem_filter hs
    simpa using this
  · intro k hk h1 h2
    rw [heq]
    apply List.mem_filter_of_mem
    · exact List.mem_map_of_mem _ hk
    · simpa using ⟨h1, h2⟩

/-- Witness for C2 on a concrete store holding one completed and one
pending record: recovery enqueues exactly the filtered listing. -/
theorem c2_witness :
    processIncompleteShards
        (saveShardList []
          [{ ShardInfo.zero with OrderId := 1, Cid := "a", State := ShardStateComplete },
           { ShardInfo.zero with OrderId := 2, Cid := "b", State := ShardStateStored }]) =
      ((shardIndexOf
        (saveShardList []
          [{ ShardInfo.zero with OrderId := 1, Cid := "a", State := ShardStateComplete },
           { ShardInfo.zero with OrderId := 2, Cid := "b", State := ShardStateStored }])).map
          (fun k => getShardIgnoringError
            (saveShardList []
              [{ ShardInfo.zero with OrderId := 1, Cid := "a", State := ShardStateComplete },
               { ShardInfo.zero with OrderId := 2, Cid := "b", State := ShardStateStored }])
            k.OrderId k.Cid)).filter
        (fun s => decide (s.State ≠ ShardStateComplete ∧ s.State ≠ ShardStateTerminate)) :=
  (c2_recovery_enqueues_pending _ (by decide)).1

/-! ## C10: zero-value reads and fresh-record creation -/

/-- C10: `GetShard` answers a missing `(orderId, cid)` key with the
zero-valued record and a nil error, and the `HandleShardAssign` loop
body creates and persists a fresh record exactly when the read result
equals the zero value, leaving the store untouched otherwise. -/
theorem c10_getshard_zero_and_assign_fresh :
    (∀ (ds : DS) (oid : Nat) (cid : String),
        dsHas ds (DsKey.shardKey oid cid) = false →
        GetShard ds oid cid = .ok ShardInfo.zero) ∧
    (∀ (order : ChainOrder) (req : ShardAssignReq) (ds : DS) (cid : String),
        getShardIgnoringError ds req.OrderId cid = ShardInfo.zero →
        handleShardAssignShard order req ds cid =
          ((SaveShard ds (freshShard order req cid)).fst, freshShard order req cid)) ∧
    (∀ (order : ChainOrder) (req : ShardAssignReq) (ds : DS) (cid : String),
        getShardIgnoringError ds req.OrderId cid ≠ ShardInfo.zero →
        handleShardAssignShard order req ds cid =
          (ds, getShardIgnoringError ds req.OrderId cid)) := by
  refine ⟨?_, ?_, ?_⟩
  · intro ds oid cid h
    unfold GetShard
    unfold dsHas at h
    rcases hg : dsGet ds (DsKey.shardKey oid cid) with _ | v
    · rfl
    · rw [hg] at h
      simp at h
  · intro order req ds cid h
    unfold handleShardAssignShard
    simp [h]
  · intro order req ds cid h
    unfold handleShardAssignShard
    simp [h]

/-- Witness for C10: on the empty store the read is `ok` with the zero
value, and the assign loop body persists and enqueues the fresh
record. -/
theorem c10_witness :
    GetShard [] 1 "c" = .ok ShardInfo.zero ∧
    handleShardAssignShard
        { Id := 1, Owner := "ow", Provider := "gw", Operation := 1, Expire := 20
          Shards := [] }
        { OrderId := 1, DataId := "d", Assignee := "nodeA", TxHash := "t", Height := 2
          AssignTxType := "MsgStore" } [] "c" =
      ((SaveShard []
          (freshShard
            { Id := 1, Owner := "ow", Provider := "gw", Operation := 1, Expire := 20
              Shards := [] }
            { OrderId := 1, DataId := "d", Assignee := "nodeA", TxHash := "t", Height := 2
              AssignTxType := "MsgStore" } "c")).fst,
        freshShard
          { Id := 1, Owner := "ow", Provider := "gw", Operation := 1, Expire := 20
            Shards := [] }
          { OrderId := 1, DataId := "d", Assignee := "nodeA", TxHash := "t", Height := 2
            AssignTxType := "MsgStore" } "c") :=
  ⟨c10_getshard_zero_and_assign_fresh.1 [] 1 "c" (by decide),
   c10_getshard_zero_and_assign_fresh.2.1 _ _ [] "c" (by decide)⟩

/-! ## C4: a failed attempt is not re-enqueued -/

/-- C4 (divergence witness): when the gateway answers the fetch with a
failure code, the worker loop records the error on the persisted record
(state still `Validated`, hence non-terminal) and performs exactly one
attempt; the queue drained by `Start` receives no re-enqueued task — the
source's retry mechanism is a TODO. -/
theorem c4_failed_attempt_not_reenqueued :
    (Start procEnvLoadFail [] [taskC4]).snd =
      [ProcResult.fail ErrT.failuresResponsed "gateway failure"] ∧
    GetShard (Start procEnvLoadFail [] [taskC4]).fst taskC4.OrderId taskC4.Cid =
      .ok { taskC4 with Tries := 1, LastErr := "gateway failure" } ∧
    ({ taskC4 with Tries := 1, LastErr := "gateway failure" } : ShardInfo).State ≠
      ShardStateTerminate := by
  decide

/-! ## C5: the cid-mismatch branch panics on the nil error -/

/-- C5 (divergence witness): on a cid mismatch the source passes the
stale nil `err` to `updateShardError`, whose `err.Error()` call panics;
nothing is persisted (`LastErr` is never written) and `ErrInvalidCid` is
never returned. -/
theorem c5_cid_mismatch_nil_error_panic :
    process procEnvBadCid [] taskC5 = (ProcResult.panicNil, []) ∧
    (process procEnvBadCid [] taskC5).fst ≠
      ProcResult.fail ErrT.invalidCid
        ("ipfs cid " ++ "other" ++ " != task cid " ++ taskC5.Cid) := by
  decide

/-! ## C3: `Owner == "all"` does not bypass signature verification -/

/-- C3 (divergence witness): `HandleShardLoad` runs DID construction and
JWS verification for the owner `"all"` exactly as for any other owner —
with a failing verifier the unsigned public query is rejected, with a
succeeding verifier the same request is served — so the verification
step is consulted, not skipped. -/
theorem c3_all_owner_verification_not_skipped :
    reqAll.Proposal.Proposal.Owner = "all" ∧
    HandleShardLoad loadEnvReject reqAll "peer1" =
      loadFail loadEnvReject reqAll ErrorCodeInternalErr
        "verify client order proposal signature failed: invalid signature" ∧
    (HandleShardLoad loadEnvReject reqAll "peer1").Code ≠ 0 ∧
    (HandleShardLoad loadEnvReject reqAll "peer1").Content = [] ∧
    (HandleShardLoad loadEnvAccept reqAll "peer1").Code = 0 ∧
    (HandleShardLoad loadEnvAccept reqAll "peer1").Content = [7] := by
  decide

/-! ## C7: the staging area after `CommitModel` -/

theorem stagingGet_unstage (st : Staging) (o c : String) :
    stagingGet (UnstageShard st o c) (o, c) = none := by
  induction st with
  | nil => rfl
  | cons kv rest ih =>
      rcases kv with ⟨k2, v2⟩
      by_cases hk : k2 = (o, c)
      · simpa [UnstageShard, List.filter_cons, hk] using ih
      · simpa [UnstageShard, List.filter_cons, hk, stagingGet] using ih

theorem commitModelFinish_snd (env : GatewayEnv) (st : Staging)
    (proposal : StoreProposal) (orderId : Nat) :
    (commitModelFinish env st proposal orderId).snd =
      UnstageShard st proposal.Owner proposal.Cid := by
  unfold commitModelFinish
  dsimp only
  repeat' split
  all_goals rfl

/-- C7: if `CommitModel` returns success the staged `(Owner, Cid)` entry
is gone, and whenever the submit/subscribe steps succeed the unstage
step runs before return on both the completion and the timeout path —
the final staging state is the staged state with the key removed,
whatever the wait outcome. -/
theorem c7_commit_unstages (env : GatewayEnv) (st : Staging)
    (proposal : StoreProposal) (orderId : Nat) (content : List Nat) :
    (∀ r st2, CommitModel env st proposal orderId content = (.ok r, st2) →
        stagingGet st2 (proposal.Owner, proposal.Cid) = none) ∧
    ((if orderId = 0 then exceptOk env.storeOrder = true
      else exceptOk (env.orderReady orderId) = true) →
      env.subscribeOrderComplete = none →
      ((CommitModel env st proposal orderId content).snd =
          UnstageShard (StageShard st proposal.Owner proposal.Cid content)
            proposal.Owner proposal.Cid ∧
        stagingGet (CommitModel env st proposal orderId content).snd
          (proposal.Owner, proposal.Cid) = none)) := by
  constructor
  · intro r st2 hres
    unfold CommitModel at hres
    by_cases h0 : orderId = 0
    · rw [if_pos h0] at hres
      rcases hso : env.storeOrder with e | res
      · simp only [hso] at hres
        exact absurd (congrArg Prod.fst hres) (by simp)
      · simp only [hso] at hres
        rcases hsub : env.subscribeOrderComplete with _ | e2
        · simp only [hsub] at hres
          have h2 : (commitModelFinish env
              (StageShard st proposal.Owner proposal.Cid content) proposal _).snd = st2 :=
            congrArg Prod.snd hres
          rw [← h2, commitModelFinish_snd]
          exact stagingGet_unstage _ _ _
        · simp only [hsub] at hres
          exact absurd (congrArg Prod.fst hres) (by simp)
    · rw [if_neg h0] at hres
      rcases hor : env.orderReady orderId with e | tx
      · simp only [hor] at hres
        exact absurd (congrArg Prod.fst hres) (by simp)
      · simp only [hor] at hres
        rcases hsub : env.subscribeOrderComplete with _ | e2
        · simp only [hsub] at hres
          have h2 : (commitModelFinish env
              (StageShard st proposal.Owner proposal.Cid content) proposal _).snd = st2 :=
            congrArg Prod.snd hres
          rw [← h2, commitModelFinish_snd]
          exact stagingGet_unstage _ _ _
        · simp only [hsub] at hres
          exact absurd (congrArg Prod.fst hres) (by simp)
  · intro hok hsub
    unfold CommitModel
    by_cases h0 : orderId = 0
    · simp only [if_pos h0]
      rcases hso : env.storeOrder with e | res
      · rw [h0] at hok
        simp [hso, exceptOk] at hok
      · simp only [hso, hsub]
        exact ⟨commitModelFinish_snd _ _ _ _, by
          rw [commitModelFinish_snd]
          exact stagingGet_unstage _ _ _⟩
    · simp only [if_neg h0]
      rcases hor : env.orderReady orderId with e | tx
      · simp only [if_neg h0] at hok
        simp [hor, exceptOk] at hok
      · simp only [hor, hsub]
        exact ⟨commitModelFinish_snd _ _ _ _, by
          rw [commitModelFinish_snd]
          exact stagingGet_unstage _ _ _⟩

/-- Witness for C7: a completed commit leaves the key unstaged. -/
theorem c7_witness :
    (CommitModel gatewayEnvOk [] proposalC7 0 [1]).snd =
      UnstageShard (StageShard [] proposalC7.Owner proposalC7.Cid [1])
        proposalC7.Owner proposalC7.Cid ∧
    stagingGet (CommitModel gatewayEnvOk [] proposalC7 0 [1]).snd
      (proposalC7.Owner, proposalC7.Cid) = none :=
  (c7_commit_unstages gatewayEnvOk [] proposalC7 0 [1]).2 (by decide) rfl

/-! ## C8: mirroring and the inline content drop -/

/-- C8 counterexample: a File-aliased model below the size limit is
mirrored to the HTTP path, yet the inline content is returned intact —
the drop happens only for oversize content. -/
theorem c8_file_alias_keeps_inline_content :
    fileAliasMatch metaC8.Alias = true ∧
    ¬ fetchEnvC8.contentLimit < 3 ∧
    FetchContent fetchEnvC8 metaC8 =
      .ok ({ Cid := "c0", Content := [1, 2, 3] },
           { fileWrites := [(pathJoin "/srv/http" metaC8.DataId, [1, 2, 3])]
             ipfsWrites := [] }) ∧
    ({ Cid := "c0", Content := [1, 2, 3] } : FetchResult).Content ≠ [] := by
  decide

/-- C8 amended: when the assembled content exceeds the limit or the
alias matches the File prefix, the content is written to the HTTP
server path (and to the IPFS store when enabled), and the inline
`Content` field is cleared only when the content exceeds the limit. -/
theorem c8_mirror_and_drop_only_oversize (env : FetchEnv) (meta : Model)
    (content : List Nat) (path : String)
    (hc : assembleContent env meta = .ok content)
    (hp : env.httpFilePath = .ok path)
    (hf : env.createFileResult = none)
    (hi : env.ipfsEnable = true → env.ipfsStoreResult = none)
    (hbig : env.contentLimit < content.length ∨ fileAliasMatch meta.Alias = true) :
    FetchContent env meta = .ok
      ({ Cid := env.calculateCid content
         Content := if env.contentLimit < content.length then [] else content },
       { fileWrites := [(pathJoin path meta.DataId, content)]
         ipfsWrites := if env.ipfsEnable then [(env.calculateCid content, content)] else [] }) := by
  unfold FetchContent
  rw [hc]
  dsimp only
  rw [if_pos hbig]
  unfold fetchMirror
  rw [hp, hf]
  dsimp only
  by_cases hip : env.ipfsEnable = true
  · rw [hip, hi hip]
    simp
  · have hip2 : env.ipfsEnable = false := by
      revert hip; cases env.ipfsEnable <;> simp
    rw [hip2]
    simp

/-- Witness for the amended C8 at the counterexample's input. -/
theorem c8_mirror_witness :
    FetchContent fetchEnvC8 metaC8 =
      .ok ({ Cid := "c0", Content := [1, 2, 3] },
           { fileWrites := [("/srv/http/d1", [1, 2, 3])], ipfsWrites := [] }) := by
  have h := c8_mirror_and_drop_only_oversize fetchEnvC8 metaC8 [1, 2, 3] "/srv/http"
    (by decide) rfl rfl (fun hh => absurd hh (by decide)) (Or.inr (by decide))
  rw [h]
  decide

/-! ## C9: `HandleShardMigrate` response iff all checks pass -/

theorem str_append_ne_empty (a b : String) (h : a ≠ "") : a ++ b ≠ "" := by
  intro hab
  apply h
  have hd := congrArg String.data hab
  simp only [String.data_append] at hd
  rcases List.append_eq_nil.mp hd with ⟨ha, _⟩
  rcases a with ⟨la⟩
  simp only at ha
  rw [ha]

theorem migrateFail_code_ne_zero {code : Nat} (msg : String) (h : code ≠ 0) :
    (migrateFail code msg).Code ≠ 0 := h

/-- C9: the migration handler answers `Code = 0` exactly when every
verification in the source passes (`migrateVerified`); any failing check
yields a non-zero code with a non-empty reason in `Message`; and when
all checks pass the response carries the hash and height of the
submitted `MsgComplete`. -/
theorem c9_migrate_code_iff_checks (env : MigrateEnv) (req : ShardMigrateReq) :
    ((HandleShardMigrate env req).Code = 0 ↔ migrateVerified env req = true) ∧
    (migrateVerified env req = false →
        (HandleShardMigrate env req).Code ≠ 0 ∧
        (HandleShardMigrate env req).Message ≠ "") ∧
    (∀ hsh ht, migrateVerified env req = true → env.completeOrder = .ok (hsh, ht) →
        HandleShardMigrate env req =
          { Code := 0, Message := "", CompleteHash := hsh, CompleteHeight := ht }) := by
  refine ⟨?_, ?_, ?_⟩
  · unfold HandleShardMigrate migrateVerified migrateFail
    repeat' split
    all_goals simp_all [ErrorCodeInternalErr, ErrorCodeInvalidTx]
  · intro hv
    unfold migrateVerified at hv
    unfold HandleShardMigrate migrateFail
    repeat' split
    all_goals
      first
        | (refine ⟨(by decide : ErrorCodeInternalErr ≠ 0), ?_⟩
           repeat' apply str_append_ne_empty
           decide)
        | (refine ⟨(by decide : ErrorCodeInvalidTx ≠ 0), ?_⟩
           repeat' apply str_append_ne_empty
           decide)
        | simp_all
  · intro hsh ht hv hco
    unfold migrateVerified at hv
    unfold HandleShardMigrate
    repeat' split
    all_goals simp_all

/-- Witness for C9: with every check passing, the response carries code
zero and the `MsgComplete` coordinates. -/
theorem c9_witness :
    HandleShardMigrate migrateEnvOk migrateReqOk =
      { Code := 0, Message := "", CompleteHash := "ctx", CompleteHeight := 44 } :=
  (c9_migrate_code_iff_checks migrateEnvOk migrateReqOk).2.2 "ctx" 44 (by decide) rfl

end SaoNode
